import Mathlib

/-!
Wi-Fi provisioning: a shallow embedding of `wifi_provisioning.cpp`.

C strings are lists of byte values (`Nat`); a buffer reads as `0` (the
terminator) at and after its end.  Static variables of the translation unit
and the members of the `wifi_provisioning` object are fields of `World`.
The external collaborators (NVS store, HTTP server, Wi-Fi driver events) are
inputs: the store's answers are fields of `World`, the requests served by the
HTTP server and the events delivered to `wifi_event_handler` are lists.
-/

namespace WIFI_PROVISIONING

/-! ## C strings -/

/-- Byte values of a text (code points, all ASCII in the uses below). -/
def bytes (s : String) : List Nat := s.toList.map Char.toNat

/-- Byte read at offset `i` of a buffer; reads as the terminator at and after the end. -/
def rd (src : List Nat) (i : Nat) : Nat := src.getD i 0

/-- The C string held in a buffer: the bytes before the first terminator. -/
def cstr : List Nat → List Nat
  | [] => []
  | c :: rest => if c = 0 then [] else c :: cstr rest

/-- Length of the C string held in a buffer (`strlen`). -/
def strlen (src : List Nat) : Nat := (cstr src).length

/-- Hexadecimal digit test of the C library (`isxdigit`, C locale). -/
def isxdigit (c : Nat) : Bool :=
  (48 ≤ c && c ≤ 57) || (65 ≤ c && c ≤ 70) || (97 ≤ c && c ≤ 102)

/-! ## `urldecode2` (lines 132-167) -/

/-- The digit conversion applied to `a` and to `b` in `urldecode2`:
`if (a >= 'a') a -= 'a' - 'A'; if (a >= 'A') a -= ('A' - 10); else a -= '0';`. -/
def hexdigit (a : Nat) : Nat :=
  let a1 := if a ≥ 97 then a - (97 - 65) else a
  if a1 ≥ 65 then a1 - (65 - 10) else a1 - 48

/-- Loop state of `urldecode2`: the read offset into `src`, the bytes written
through `dst` so far (in order), and the number of loop iterations done. -/
structure DecState where
  pos : Nat
  out : List Nat
  iters : Nat
deriving DecidableEq, Repr

/-- One iteration of the `while (*src)` loop; `none` when `*src` is the terminator. -/
def urldecode2_step (src : List Nat) (st : DecState) : Option DecState :=
  if rd src st.pos = 0 then none
  else
    let a := rd src (st.pos + 1)
    let b := rd src (st.pos + 2)
    if rd src st.pos = 37 && (a != 0 && b != 0) && (isxdigit a && isxdigit b) then
      some ⟨st.pos + 3, st.out ++ [(16 * hexdigit a + hexdigit b) % 256], st.iters + 1⟩
    else if rd src st.pos = 43 then
      some ⟨st.pos + 1, st.out ++ [32], st.iters + 1⟩
    else
      some ⟨st.pos + 1, st.out ++ [rd src st.pos], st.iters + 1⟩

/-- The `while (*src)` loop, bounded by `fuel` iterations; `none` when the
bound is reached before the loop exits. -/
def urldecode2_loop (src : List Nat) : Nat → DecState → Option DecState
  | 0, _ => none
  | fuel + 1, st =>
    match urldecode2_step src st with
    | none => some st
    | some st1 => urldecode2_loop src fuel st1

/-- Final loop state of `urldecode2` on the buffer `src`. -/
def urldecode2_run (src : List Nat) : Option DecState :=
  urldecode2_loop src (src.length + 1) ⟨0, [], 0⟩

/-- Bytes `urldecode2(dst, src)` writes to `dst`, in order, the final
`*dst++ = 0` included. -/
def urldecode2 (src : List Nat) : Option (List Nat) :=
  (urldecode2_run src).map (fun st => st.out ++ [0])

/-! ## State -/

/-- Error codes as far as the code distinguishes them. -/
inductive esp_err_t where
  | ESP_OK
  | ESP_FAIL
deriving DecidableEq, Repr

/-- What the second `nvs_get_str` call for a key answers: `ESP_OK` with the
stored string, `ESP_ERR_NVS_NOT_FOUND`, or any other error. -/
inductive NvsGet where
  | ok (value : List Nat)
  | not_found
  | error
deriving DecidableEq, Repr

/-- The fields of `glob_wifi_config.sta` the code copies credentials into,
each as the string it holds: values that fit their arrays (an ssid under 32
bytes, a password under 64). -/
structure wifi_sta_config_t where
  ssid : List Nat
  password : List Nat
deriving DecidableEq, Repr

/-- What `wifi_event_handler` reads and writes: the static `s_retry_num`, the
bits of the event group `s_wifi_event_group`, and the number of
`esp_wifi_connect` calls issued so far. -/
structure Station where
  s_retry_num : Int
  s_wifi_event_group : Nat
  esp_wifi_connect_calls : Nat
deriving DecidableEq, Repr

/-- The NVS store as the code sees it (whether `nvs_open` succeeds in the
lookup, the answers for the two keys, the log of `nvs_set_str` calls), the
static variables, and the member `valid_wifi_credentials_in_NVS`. -/
structure World where
  nvs_open_ok : Bool
  nvs_ssid : NvsGet
  nvs_password : NvsGet
  nvs_set_str_calls : List (String × List Nat)
  sta : Station
  network_credentials_sta_set : Bool
  glob_wifi_config : wifi_sta_config_t
  valid_wifi_credentials_in_NVS : Bool
deriving DecidableEq, Repr

/-- The retry ceiling (line 10). -/
def ESP_MAXIMUM_RETRY : Int := 10

/-- Event-group bit `BIT0`: connected to the AP with an IP. -/
def WIFI_CONNECTED_BIT : Nat := 1

/-- Event-group bit `BIT1`: failed to connect after the maximum amount of retries. -/
def WIFI_FAIL_BIT : Nat := 2

/-- Value of sizeof for the local arrays `urlpart`, `ssid` and `passkey` of `setWifiParams`. -/
def sizeof_urlpart : Nat := 32

/-- Constructor (lines 36-41). -/
def wifi_provisioning (w : World) : World :=
  { w with valid_wifi_credentials_in_NVS := true, network_credentials_sta_set := false }

/-! ## `_credentials_stored_in_NVS` (lines 65-124) -/

/-- The store lookup: the returned flag and the state afterwards (`strcpy` of
each value read into `glob_wifi_config`). -/
def _credentials_stored_in_NVS (w : World) : Bool × World :=
  let return_value := false
  if !w.nvs_open_ok then
    (false, w)
  else
    let r :=
      match w.nvs_ssid with
      | .ok ssid =>
        (true, { w with glob_wifi_config := { w.glob_wifi_config with ssid := cstr ssid } })
      | .not_found => (return_value, w)
      | .error => (return_value, w)
    let w := r.2
    match w.nvs_password with
    | .ok password =>
      (true, { w with glob_wifi_config := { w.glob_wifi_config with password := cstr password } })
    | .not_found => (false, w)
    | .error => (false, w)

/-! ## `setWifiParams` (lines 175-214) and the HTTP routes -/

/-- The two URIs registered in `startHTTPServer`. -/
inductive Route where
  | index
  | control
deriving DecidableEq, Repr

/-- A request as the handlers use it: its route, its URL query string, and
whether `httpd_req_get_url_query_str` answers `ESP_OK`. -/
structure httpd_req_t where
  uri : Route
  query : List Nat
  query_str_ok : Bool
deriving DecidableEq, Repr

/-- The ESP-IDF helper `httpd_query_key_value(qry, key, val, val_size)`, an
input of the model: `some v` when it answers `ESP_OK` and leaves the string
`v` in `val`, `none` for any other answer. -/
abbrev QueryKeyValue := List Nat → String → Nat → Option (List Nat)

/-- Handler of `/control`: the returned code and the state afterwards. -/
def setWifiParams (kv : QueryKeyValue) (w : World) (req : httpd_req_t) :
    Option (esp_err_t × World) :=
  let buf_len := strlen req.query + 1
  if buf_len > 1 then
    if req.query_str_ok then
      let buf := req.query
      (match kv buf "ssid" sizeof_urlpart with
        | some urlpart =>
          (urldecode2 urlpart).map fun ssid =>
            { w with glob_wifi_config := { w.glob_wifi_config with ssid := cstr ssid } }
        | none => some w).bind fun w =>
      (match kv buf "passkey" sizeof_urlpart with
        | some urlpart =>
          (urldecode2 urlpart).map fun passkey =>
            { w with glob_wifi_config := { w.glob_wifi_config with password := cstr passkey } }
        | none => some w).bind fun w =>
      some (.ESP_OK, { w with network_credentials_sta_set := true })
    else some (.ESP_OK, w)
  else some (.ESP_OK, w)

/-- Handler of `/` (lines 327-336). -/
def index_get_handler (kv : QueryKeyValue) (w : World) (req : httpd_req_t) :
    Option (esp_err_t × World) :=
  let (found, w) := _credentials_stored_in_NVS w
  if !found then
    (setWifiParams kv w req).map fun r => (.ESP_OK, r.2)
  else some (.ESP_OK, w)

/-- The URI table of `startHTTPServer` (lines 353-365): one request served. -/
def startHTTPServer (kv : QueryKeyValue) (w : World) (req : httpd_req_t) :
    Option (esp_err_t × World) :=
  match req.uri with
  | .index => index_get_handler kv w req
  | .control => setWifiParams kv w req

/-- The requests `reqs` served one after the other. -/
def serve (kv : QueryKeyValue) : World → List httpd_req_t → Option World
  | w, [] => some w
  | w, req :: reqs => (startHTTPServer kv w req).bind fun r => serve kv r.2 reqs

/-- Lines 388-412; `reqs` are the requests the HTTP server serves between
`startHTTPServer` and `httpd_stop`.  The polling loop ends only once
`network_credentials_sta_set` is raised: `none` when no request raises it.
The events of this phase (peers joining and leaving the soft AP) reach only
the logging branches of the handler and are left out. -/
def _start_soft_AP_mode_and_get_credentials (kv : QueryKeyValue) (w : World)
    (reqs : List httpd_req_t) : Option World :=
  let w := { w with valid_wifi_credentials_in_NVS := false }
  (serve kv w reqs).bind fun w =>
    if w.network_credentials_sta_set then some w else none

/-! ## `wifi_event_handler` (lines 224-276) -/

/-- The two event bases the handler is registered for. -/
inductive esp_event_base_t where
  | WIFI_EVENT
  | IP_EVENT
deriving DecidableEq, Repr

/-- An event as delivered to the handler. -/
structure Event where
  event_base : esp_event_base_t
  event_id : Int
deriving DecidableEq, Repr

/-! Event ids: the values of the ESP-IDF enums `wifi_event_t` and `ip_event_t`. -/

/-- Id of "station started" in `wifi_event_t`. -/
def WIFI_EVENT_STA_START : Int := 2

/-- Id of "station disconnected" in `wifi_event_t`. -/
def WIFI_EVENT_STA_DISCONNECTED : Int := 5

/-- Id of "a station joined the soft AP" in `wifi_event_t`. -/
def WIFI_EVENT_AP_STACONNECTED : Int := 14

/-- Id of "a station left the soft AP" in `wifi_event_t`. -/
def WIFI_EVENT_AP_STADISCONNECTED : Int := 15

/-- Id of "station got an IP address" in `ip_event_t`. -/
def IP_EVENT_STA_GOT_IP : Int := 0

/-- The event "station started". -/
def sta_start : Event := ⟨.WIFI_EVENT, WIFI_EVENT_STA_START⟩

/-- The event "disconnected". -/
def sta_disconnected : Event := ⟨.WIFI_EVENT, WIFI_EVENT_STA_DISCONNECTED⟩

/-- The event "address acquired". -/
def sta_got_ip : Event := ⟨.IP_EVENT, IP_EVENT_STA_GOT_IP⟩

/-- The event "AP peer joined". -/
def ap_staconnected : Event := ⟨.WIFI_EVENT, WIFI_EVENT_AP_STACONNECTED⟩

/-- The event "AP peer left". -/
def ap_stadisconnected : Event := ⟨.WIFI_EVENT, WIFI_EVENT_AP_STADISCONNECTED⟩

/-- One call of `esp_wifi_connect()`: one more join attempt. -/
def esp_wifi_connect (st : Station) : Station :=
  { st with esp_wifi_connect_calls := st.esp_wifi_connect_calls + 1 }

/-- The call `xEventGroupSetBits(s_wifi_event_group, bit)`. -/
def xEventGroupSetBits (st : Station) (bit : Nat) : Station :=
  { st with s_wifi_event_group := st.s_wifi_event_group ||| bit }

/-- The handler, branch by branch. -/
def wifi_event_handler (st : Station) (ev : Event) : Station :=
  if ev.event_id = WIFI_EVENT_AP_STACONNECTED then st
  else if ev.event_id = WIFI_EVENT_AP_STADISCONNECTED then st
  else if ev.event_base = .WIFI_EVENT ∧ ev.event_id = WIFI_EVENT_STA_START then
    esp_wifi_connect st
  else if ev.event_base = .WIFI_EVENT ∧ ev.event_id = WIFI_EVENT_STA_DISCONNECTED then
    if st.s_retry_num < ESP_MAXIMUM_RETRY then
      let st := esp_wifi_connect st
      { st with s_retry_num := st.s_retry_num + 1 }
    else
      xEventGroupSetBits st WIFI_FAIL_BIT
  else if ev.event_base = .IP_EVENT ∧ ev.event_id = IP_EVENT_STA_GOT_IP then
    xEventGroupSetBits { st with s_retry_num := 0 } WIFI_CONNECTED_BIT
  else if ev.event_id = WIFI_EVENT_AP_STACONNECTED then st
  else if ev.event_id = WIFI_EVENT_AP_STADISCONNECTED then st
  else st

/-- The handler run over a sequence of events. -/
def deliver (st : Station) (events : List Event) : Station :=
  events.foldl wifi_event_handler st

/-! ## `wifi_init_sta_try_to_connect_to_wifi` (lines 418-502) -/

/-- The call `xEventGroupCreate()`: a group with no bit set. -/
def xEventGroupCreate (st : Station) : Station :=
  { st with s_wifi_event_group := 0 }

/-- The call `xEventGroupWaitBits(s_wifi_event_group, WIFI_CONNECTED_BIT |
WIFI_FAIL_BIT, pdFALSE, pdFALSE, portMAX_DELAY)` while the handler receives `events`: the
state at the moment one of the two bits is set; `none` when the events end
with neither bit set (the wait has no timeout). -/
def xEventGroupWaitBits : Station → List Event → Option Station
  | st, [] =>
    if st.s_wifi_event_group &&& (WIFI_CONNECTED_BIT ||| WIFI_FAIL_BIT) ≠ 0 then some st
    else none
  | st, ev :: events =>
    if st.s_wifi_event_group &&& (WIFI_CONNECTED_BIT ||| WIFI_FAIL_BIT) ≠ 0 then some st
    else xEventGroupWaitBits (wifi_event_handler st ev) events

/-- Station mode: the returned flag and the state afterwards.  `events` are
the events the handler receives after `esp_wifi_start`; the event group is
taken as created before the first of them is handled.  The checked calls of
lines 423-453 are taken to pass, as they do at the first invocation after a
restart; `checked_wifi_init_sta_try_to_connect_to_wifi` adds the check of line
424, which aborts a later invocation. -/
def wifi_init_sta_try_to_connect_to_wifi (w : World) (events : List Event) :
    Option (Bool × World) :=
  let ret := false
  (xEventGroupWaitBits (xEventGroupCreate w.sta) events).map fun st =>
    let w := { w with sta := st }
    let bits := st.s_wifi_event_group
    let const_ssid := cstr w.glob_wifi_config.ssid
    let const_password := cstr w.glob_wifi_config.password
    if bits &&& WIFI_CONNECTED_BIT ≠ 0 then
      if !w.valid_wifi_credentials_in_NVS then
        (true, { w with nvs_set_str_calls :=
          w.nvs_set_str_calls ++ [("nvs_ssid", const_ssid), ("nvs_password", const_password)] })
      else (true, w)
    else if bits &&& WIFI_FAIL_BIT ≠ 0 then
      (false, w)
    else (ret, w)

/-- Lines 504-517. -/
def _connect_to_network (w : World) (events : List Event) : Option (Bool × World) :=
  (wifi_init_sta_try_to_connect_to_wifi w events).map fun r =>
    if r.1 then (true, r.2) else (false, r.2)

/-- Lines 519-522: no effect. -/
def _save_credentials (w : World) : esp_err_t × World := (.ESP_OK, w)

/-- Lines 43-57, on the state `w` of an object after its constructor. -/
def connect_to_network (kv : QueryKeyValue) (w : World) (reqs : List httpd_req_t)
    (events : List Event) : Option (Bool × World) :=
  let (found, w) := _credentials_stored_in_NVS w
  (if !found then _start_soft_AP_mode_and_get_credentials kv w reqs else some w).bind fun w =>
  (_connect_to_network w events).map fun r =>
    if r.1 then (true, (_save_credentials r.2).2) else (false, r.2)

/-! ## A query-string reader for the examples -/

/-- Bytes before the first `d`. -/
def takeUntil (d : Nat) : List Nat → List Nat
  | [] => []
  | c :: rest => if c = d then [] else c :: takeUntil d rest

/-- Bytes after the first `d`, if there is one. -/
def dropUntil (d : Nat) : List Nat → Option (List Nat)
  | [] => none
  | c :: rest => if c = d then some rest else dropUntil d rest

/-- Search of `key=value` among the `&`-separated pairs of a query string,
bounded by `fuel` pairs. -/
def query_key_value_loop : Nat → List Nat → List Nat → Nat → Option (List Nat)
  | 0, _, _, _ => none
  | fuel + 1, qry, key, val_size =>
    if qry = [] then none
    else
      match dropUntil 61 qry with
      | none => none
      | some val_ptr =>
        if takeUntil 61 qry = key then
          let val := takeUntil 38 val_ptr
          if val.length + 1 ≤ val_size then some val else none
        else
          match dropUntil 38 val_ptr with
          | none => none
          | some next => query_key_value_loop fuel next key val_size

/-- A reader of `param1=val1&param2=val2` query strings that answers as the
ESP-IDF helper does on such strings; it instantiates `QueryKeyValue` in the
examples. -/
def query_key_value : QueryKeyValue :=
  fun qry key val_size => query_key_value_loop (qry.length + 1) (cstr qry) (bytes key) val_size

/-- A store with neither key and no static state set: a device at first boot. -/
def first_boot : World :=
  { nvs_open_ok := true, nvs_ssid := .not_found, nvs_password := .not_found,
    nvs_set_str_calls := [], sta := ⟨0, 0, 0⟩, network_credentials_sta_set := false,
    glob_wifi_config := ⟨[], []⟩, valid_wifi_credentials_in_NVS := false }

/-- A store holding both keys. -/
def provisioned (ssid password : List Nat) : World :=
  { first_boot with nvs_ssid := .ok ssid, nvs_password := .ok password }

/-! ## Reference decoder and proof helpers -/

/-- What the loop of `urldecode2` writes when it starts reading at the head of
`l`: the closed form of the loop used in the proofs. -/
def decoded : List Nat → List Nat
  | [] => []
  | [c] => if c = 0 then [] else [if c = 43 then 32 else c]
  | [c, a] => if c = 0 then [] else (if c = 43 then 32 else c) :: decoded [a]
  | c :: a :: b :: rest =>
    if c = 0 then []
    else if c = 37 ∧ isxdigit a = true ∧ isxdigit b = true then
      (16 * hexdigit a + hexdigit b) % 256 :: decoded rest
    else (if c = 43 then 32 else c) :: decoded (a :: b :: rest)

/-- Value of a hexadecimal digit, upper and lower case alike (QueryDecoder, spec 4.4). -/
def hexval (c : Nat) : Nat :=
  if 48 ≤ c ∧ c ≤ 57 then c - 48
  else if 65 ≤ c ∧ c ≤ 70 then c - 65 + 10
  else if 97 ≤ c ∧ c ≤ 102 then c - 97 + 10
  else 0

/-- The reference decoding of the spec (QueryDecoder, 4.4): `%XY` becomes the
byte `0xXY`, `+` becomes a space, any other character is copied.  It is the
reference for well-formed input only (the spec leaves the rest out of contract). -/
def QueryDecoder_decode : List Nat → List Nat
  | [] => []
  | [c] => [if c = 43 then 32 else c]
  | [c, x] => (if c = 43 then 32 else c) :: QueryDecoder_decode [x]
  | c :: x :: y :: rest =>
    if c = 37 then (16 * hexval x + hexval y) :: QueryDecoder_decode rest
    else if c = 43 then 32 :: QueryDecoder_decode (x :: y :: rest)
    else c :: QueryDecoder_decode (x :: y :: rest)

/-- The state `w1` differs from `w` at most in the pending credentials
`glob_wifi_config` and the flag `network_credentials_sta_set`. -/
def sameDevice (w w1 : World) : Prop :=
  w1.sta = w.sta ∧ w1.nvs_set_str_calls = w.nvs_set_str_calls ∧
  w1.valid_wifi_credentials_in_NVS = w.valid_wifi_credentials_in_NVS ∧
  w1.nvs_open_ok = w.nvs_open_ok ∧ w1.nvs_ssid = w.nvs_ssid ∧ w1.nvs_password = w.nvs_password

/-- Well-formed input: every `%` is followed by two hexadecimal digits. -/
def wellFormed : List Nat → Bool
  | [] => true
  | c :: rest =>
    (c != 37 || (isxdigit (rest.getD 0 0) && isxdigit (rest.getD 1 0))) && wellFormed rest

/-- Offsets of `src` read by one iteration at read offset `pos`: `*src` in
the loop test and the branch conditions; `src[1]` when `*src` is `%`; `src[2]`
when moreover `src[1]` is not the terminator (the chain of `&&` stops at its
first false operand). -/
def urldecode2_reads (src : List Nat) (pos : Nat) : List Nat :=
  if rd src pos = 37 then
    if rd src (pos + 1) ≠ 0 then [pos, pos + 1, pos + 2] else [pos, pos + 1]
  else [pos]

/-- Loop state of `urldecode2` after `n` iterations from the start; `none`
when the loop has exited before. -/
def urldecode2_after (src : List Nat) : Nat → Option DecState
  | 0 => some ⟨0, [], 0⟩
  | n + 1 => (urldecode2_after src n).bind (urldecode2_step src)

/-! ## The default event loop, across invocations -/

/-- How an invocation ends: it returns, it never returns (a wait without
timeout that nothing ends), or it aborts in an `ESP_ERROR_CHECK`. -/
inductive Outcome (α : Type) where
  | returned (a : α)
  | blocked
  | aborted
deriving DecidableEq, Repr

/-- The running program: the state `World`, and whether the default event
loop exists (created by `esp_event_loop_create_default`, not deleted since). -/
structure Process where
  world : World
  default_event_loop : Bool
deriving DecidableEq, Repr

/-- The call `ESP_ERROR_CHECK(esp_event_loop_create_default())` of lines 286
and 424: `none`, the abort, when the loop exists already (the comment of line
424: called twice, panic). -/
def esp_event_loop_create_default (p : Process) : Option Process :=
  if p.default_event_loop then none else some { p with default_event_loop := true }

/-- The call `ESP_ERROR_CHECK(esp_event_loop_delete_default())` of line 408. -/
def esp_event_loop_delete_default (p : Process) : Process :=
  { p with default_event_loop := false }

/-- The station function (lines 418-502) with the check of line 424: it
creates the default event loop or aborts, then goes on as
`wifi_init_sta_try_to_connect_to_wifi`; the loop is kept at the end (lines
499-501). -/
def checked_wifi_init_sta_try_to_connect_to_wifi (p : Process) (events : List Event) :
    Outcome (Bool × Process) :=
  match esp_event_loop_create_default p with
  | none => .aborted
  | some p =>
    match wifi_init_sta_try_to_connect_to_wifi p.world events with
    | none => .blocked
    | some r => .returned (r.1, { p with world := r.2 })

/-- The portal phase (lines 388-412) with the check of line 286 in
`wifi_init_softap`: it creates the default event loop or aborts, goes on as
`_start_soft_AP_mode_and_get_credentials`, and deletes the loop (line 408). -/
def checked_start_soft_AP_mode_and_get_credentials (kv : QueryKeyValue) (p : Process)
    (reqs : List httpd_req_t) : Outcome Process :=
  match esp_event_loop_create_default p with
  | none => .aborted
  | some p =>
    match _start_soft_AP_mode_and_get_credentials kv p.world reqs with
    | none => .blocked
    | some w => .returned (esp_event_loop_delete_default { p with world := w })

/-- The part of `connect_to_network` before the station function (lines
47-50): the program as it is when `wifi_init_sta_try_to_connect_to_wifi` is
invoked. -/
def station_entry (kv : QueryKeyValue) (p : Process) (reqs : List httpd_req_t) :
    Outcome Process :=
  let r := _credentials_stored_in_NVS p.world
  let p := { p with world := r.2 }
  if !r.1 then checked_start_soft_AP_mode_and_get_credentials kv p reqs
  else .returned p

/-- The function `connect_to_network` (lines 43-57) with the two checks. -/
def checked_connect_to_network (kv : QueryKeyValue) (p : Process) (reqs : List httpd_req_t)
    (events : List Event) : Outcome (Bool × Process) :=
  match station_entry kv p reqs with
  | .returned p => checked_wifi_init_sta_try_to_connect_to_wifi p events
  | .blocked => .blocked
  | .aborted => .aborted

theorem rd_drop (src : List Nat) (i k : Nat) : rd src (i + k) = rd (src.drop i) k := by
  simp [rd, List.getD_eq_getElem?_getD, List.getElem?_drop]

theorem strlen_nil : strlen [] = 0 := rfl

theorem strlen_cons (c : Nat) (rest : List Nat) :
    strlen (c :: rest) = if c = 0 then 0 else strlen rest + 1 := by
  unfold strlen
  simp only [cstr]
  split <;> simp

theorem strlen_le_length (l : List Nat) : strlen l ≤ l.length := by
  induction l with
  | nil => simp [strlen_nil]
  | cons c rest ih =>
    rw [strlen_cons]
    split
    · omega
    · simp only [List.length_cons]; omega

theorem isxdigit_ne_zero {c : Nat} (h : isxdigit c = true) : c ≠ 0 := by
  rintro rfl; simp [isxdigit] at h

/-- One step of the loop, read off the suffix of the buffer at the read offset. -/
theorem urldecode2_step_suffix (src : List Nat) (st : DecState) :
    urldecode2_step src st =
      match src.drop st.pos with
      | [] => none
      | c :: rest =>
        if c = 0 then none
        else if c = 37 ∧ isxdigit (rest.getD 0 0) = true ∧ isxdigit (rest.getD 1 0) = true then
          some ⟨st.pos + 3,
            st.out ++ [(16 * hexdigit (rest.getD 0 0) + hexdigit (rest.getD 1 0)) % 256],
            st.iters + 1⟩
        else some ⟨st.pos + 1, st.out ++ [if c = 43 then 32 else c], st.iters + 1⟩ := by
  have h0 : rd src st.pos = rd (src.drop st.pos) 0 := rd_drop src st.pos 0
  have h1 := rd_drop src st.pos 1
  have h2 := rd_drop src st.pos 2
  unfold urldecode2_step
  simp only [h0, h1, h2]
  cases hl : src.drop st.pos with
  | nil => simp [rd]
  | cons c rest =>
    have e0 : rd (c :: rest) 0 = c := by simp [rd]
    have e1 : rd (c :: rest) 1 = rest.getD 0 0 := by simp [rd]
    have e2 : rd (c :: rest) 2 = rest.getD 1 0 := by simp [rd]
    simp only [e0, e1, e2]
    generalize rest.getD 0 0 = a
    generalize rest.getD 1 0 = b
    by_cases hc : c = 0
    · simp [hc]
    · simp only [hc, if_false]
      by_cases hx : isxdigit a = true
      · by_cases hy : isxdigit b = true
        · have := isxdigit_ne_zero hx
          have := isxdigit_ne_zero hy
          by_cases h37 : c = 37
          · simp [*]
          · by_cases h43 : c = 43 <;> simp [*]
        · by_cases h43 : c = 43 <;> simp [*]
      · by_cases h43 : c = 43 <;> simp [*]

theorem drop_succ_of_drop {src : List Nat} {i : Nat} {c : Nat} {rest : List Nat}
    (h : src.drop i = c :: rest) (k : Nat) : src.drop (i + (k + 1)) = rest.drop k := by
  have : src.drop (i + (k + 1)) = (src.drop i).drop (k + 1) := by
    rw [List.drop_drop]
  rw [this, h, List.drop_succ_cons]

/-- The loop, started with enough fuel at any read offset, exits at the
terminator having appended `decoded` of the suffix it read. -/
theorem urldecode2_loop_suffix (src : List Nat) :
    ∀ (fuel : Nat) (st : DecState), (src.drop st.pos).length < fuel →
      ∃ n, n ≤ strlen (src.drop st.pos) ∧
        urldecode2_loop src fuel st =
          some ⟨st.pos + strlen (src.drop st.pos), st.out ++ decoded (src.drop st.pos),
            st.iters + n⟩ := by
  intro fuel
  induction fuel with
  | zero => intro st h; omega
  | succ fuel ih =>
    intro st hlen
    rw [urldecode2_loop, urldecode2_step_suffix]
    cases hl : src.drop st.pos with
    | nil => exact ⟨0, by simp [strlen_nil], by simp [strlen_nil, decoded]⟩
    | cons c rest =>
      rw [hl] at hlen
      simp only [List.length_cons] at hlen
      have d1 : src.drop (st.pos + 1) = rest := by simpa using drop_succ_of_drop hl 0
      have d3 : src.drop (st.pos + 3) = rest.drop 2 := by simpa using drop_succ_of_drop hl 2
      by_cases hc : c = 0
      · subst hc
        refine ⟨0, Nat.zero_le _, ?_⟩
        cases rest with
        | nil => simp [strlen_cons, decoded]
        | cons a r2 => cases r2 <;> simp [strlen_cons, decoded]
      · simp only [hc, if_false]
        by_cases hx : c = 37 ∧ isxdigit (rest.getD 0 0) = true ∧ isxdigit (rest.getD 1 0) = true
        · rw [if_pos hx]
          dsimp only
          obtain ⟨h37, ha, hb⟩ := hx
          subst h37
          cases rest with
          | nil => simp [isxdigit] at ha
          | cons a r2 =>
            cases r2 with
            | nil => simp [isxdigit] at hb
            | cons b r3 =>
              simp only [List.getD_cons_zero, List.getD_cons_succ] at ha hb ⊢
              have ha0 := isxdigit_ne_zero ha
              have hb0 := isxdigit_ne_zero hb
              have hd : src.drop (st.pos + 3) = r3 := by simpa using d3
              obtain ⟨n, hn, hrun⟩ := ih ⟨st.pos + 3, st.out ++
                [(16 * hexdigit a + hexdigit b) % 256], st.iters + 1⟩
                (by simp only [hd]; simp only [List.length_cons] at hlen; omega)
              simp only [hd] at hrun hn
              refine ⟨n + 1, ?_, ?_⟩
              · rw [strlen_cons, strlen_cons, strlen_cons]
                simp only [hc, ha0, hb0, if_false]; omega
              · rw [hrun, strlen_cons, strlen_cons, strlen_cons]
                have hd3 : decoded (37 :: a :: b :: r3) =
                    (16 * hexdigit a + hexdigit b) % 256 :: decoded r3 := by
                  simp [decoded, ha, hb]
                simp only [hc, ha0, hb0, if_false, hd3, List.append_assoc, List.singleton_append,
                  Option.some.injEq, DecState.mk.injEq]
                refine ⟨by omega, trivial, by omega⟩
        · rw [if_neg hx]
          dsimp only
          obtain ⟨n, hn, hrun⟩ := ih ⟨st.pos + 1, st.out ++ [if c = 43 then 32 else c],
            st.iters + 1⟩ (by simp only [d1]; omega)
          simp only [d1] at hrun hn
          refine ⟨n + 1, ?_, ?_⟩
          · rw [strlen_cons]; simp only [hc, if_false]; omega
          · rw [hrun, strlen_cons]
            have hdec : decoded (c :: rest) = (if c = 43 then 32 else c) :: decoded rest := by
              cases rest with
              | nil => simp [decoded, hc]
              | cons a r2 =>
                cases r2 with
                | nil => simp [decoded, hc]
                | cons b r3 =>
                  simp only [List.getD_cons_zero, List.getD_cons_succ] at hx
                  simp [decoded, hc, hx]
            simp only [hc, if_false, hdec, List.append_assoc, List.singleton_append,
              Option.some.injEq, DecState.mk.injEq]
            refine ⟨by omega, trivial, by omega⟩

/-- The decoder returns on every buffer, and writes `decoded src` and the terminator. -/
theorem urldecode2_eq (src : List Nat) : urldecode2 src = some (decoded src ++ [0]) := by
  obtain ⟨n, _, h⟩ := urldecode2_loop_suffix src (src.length + 1) ⟨0, [], 0⟩ (by simp)
  simp [urldecode2, urldecode2_run, h]

theorem decoded_length_le (l : List Nat) : (decoded l).length ≤ strlen l := by
  induction l using decoded.induct with
  | case1 => simp [decoded]
  | case2 => simp [decoded]
  | case3 c hc => simp [decoded, hc, strlen_cons, strlen_nil]
  | case4 a => simp [decoded]
  | case5 c a hc ih =>
    rw [strlen_cons]
    simp only [decoded, hc, if_false, List.length_cons] at ih ⊢
    omega
  | case6 a b rest => simp [decoded]
  | case7 c a b rest hc hx ih =>
    have ha0 := isxdigit_ne_zero hx.2.1
    have hb0 := isxdigit_ne_zero hx.2.2
    have hd3 : decoded (c :: a :: b :: rest) =
        (16 * hexdigit a + hexdigit b) % 256 :: decoded rest := by
      rw [decoded, if_neg hc, if_pos hx]
    rw [strlen_cons, strlen_cons, strlen_cons, hd3]
    simp only [hc, if_false, ha0, hb0, List.length_cons]
    omega
  | case8 c a b rest hc hx ih =>
    rw [strlen_cons]
    simp only [decoded, hc, hx, if_false, List.length_cons]
    omega

theorem cstr_cons (c : Nat) (rest : List Nat) :
    cstr (c :: rest) = if c = 0 then [] else c :: cstr rest := rfl

theorem decoded_cons_of_not_escape (c : Nat) (rest : List Nat) (hc : c ≠ 0)
    (hx : ¬(c = 37 ∧ isxdigit (rest.getD 0 0) = true ∧ isxdigit (rest.getD 1 0) = true)) :
    decoded (c :: rest) = (if c = 43 then 32 else c) :: decoded rest := by
  cases rest with
  | nil => simp [decoded, hc]
  | cons a r2 =>
    cases r2 with
    | nil => simp [decoded, hc]
    | cons b r3 =>
      simp only [List.getD_cons_zero, List.getD_cons_succ] at hx
      simp [decoded, hc, hx]

theorem decoded_zero_cons (rest : List Nat) : decoded (0 :: rest) = [] := by
  cases rest with
  | nil => simp [decoded]
  | cons a r2 => cases r2 <;> simp [decoded]

/-- Without `%` and `+` in the string, the loop copies the string. -/
theorem decoded_eq_cstr (l : List Nat) (h : ∀ c ∈ cstr l, c ≠ 37 ∧ c ≠ 43) :
    decoded l = cstr l := by
  induction l with
  | nil => rfl
  | cons c rest ih =>
    by_cases hc : c = 0
    · subst hc; rw [decoded_zero_cons]; rfl
    · rw [cstr_cons, if_neg hc] at h ⊢
      have hcc := h c (List.mem_cons_self _ _)
      rw [decoded_cons_of_not_escape c rest hc (fun hx => hcc.1 hx.1), if_neg hcc.2,
        ih (fun d hd => h d (List.mem_cons_of_mem _ hd))]

theorem hexdigit_eq_hexval {a : Nat} (h : isxdigit a = true) :
    hexdigit a = hexval a ∧ hexval a < 16 := by
  simp only [isxdigit, Bool.or_eq_true, Bool.and_eq_true, decide_eq_true_eq] at h
  unfold hexdigit hexval
  simp only []
  constructor <;> (split_ifs <;> omega)

theorem QueryDecoder_decode_cons_of_ne (c : Nat) (t : List Nat) (h : c ≠ 37) :
    QueryDecoder_decode (c :: t) = (if c = 43 then 32 else c) :: QueryDecoder_decode t := by
  cases t with
  | nil => simp [QueryDecoder_decode]
  | cons x t2 =>
    cases t2 with
    | nil => simp [QueryDecoder_decode]
    | cons y t3 =>
      by_cases h43 : c = 43 <;> simp [QueryDecoder_decode, h, h43]

theorem isxdigit_cstr_getD (l : List Nat) :
    (isxdigit ((cstr l).getD 0 0) = isxdigit (l.getD 0 0)) ∧
      (isxdigit ((cstr l).getD 0 0) = true →
        isxdigit ((cstr l).getD 1 0) = isxdigit (l.getD 1 0)) := by
  cases l with
  | nil => simp [cstr]
  | cons a r =>
    by_cases ha : a = 0
    · subst ha; simp [cstr, isxdigit]
    · rw [cstr_cons, if_neg ha]
      refine ⟨by simp, fun _ => ?_⟩
      cases r with
      | nil => simp [cstr]
      | cons b r2 =>
        by_cases hb : b = 0
        · subst hb; simp [cstr, isxdigit]
        · rw [cstr_cons, if_neg hb]; simp

/-- On well-formed strings the loop writes the reference decoding. -/
theorem decoded_eq_reference (l : List Nat) (h : wellFormed (cstr l) = true) :
    decoded l = QueryDecoder_decode (cstr l) := by
  induction l using decoded.induct with
  | case1 => rfl
  | case2 => rfl
  | case3 c hc =>
    have h37 : c ≠ 37 := by
      rintro rfl; simp [cstr, wellFormed, isxdigit] at h
    simp [decoded, cstr, hc, QueryDecoder_decode]
  | case4 a => rfl
  | case5 c a hc ih =>
    have h37 : c ≠ 37 := by
      rintro rfl
      by_cases ha : a = 0 <;> simp [cstr, wellFormed, isxdigit, ha] at h
    rw [cstr_cons, if_neg hc] at h ⊢
    have hw : wellFormed (cstr [a]) = true := by
      simp only [wellFormed, Bool.and_eq_true] at h; exact h.2
    rw [QueryDecoder_decode_cons_of_ne c _ h37, ← ih hw]
    simp [decoded, hc]
  | case6 a b rest => rfl
  | case7 c a b rest hc hx ih =>
    obtain ⟨h37, ha, hb⟩ := hx
    subst h37
    have ha0 := isxdigit_ne_zero ha
    have hb0 := isxdigit_ne_zero hb
    have hcs : cstr (37 :: a :: b :: rest) = 37 :: a :: b :: cstr rest := by
      simp [cstr, ha0, hb0]
    rw [hcs] at h ⊢
    have hw : wellFormed (cstr rest) = true := by
      simp only [wellFormed, Bool.and_eq_true] at h; exact h.2.2.2
    have hva := hexdigit_eq_hexval ha
    have hvb := hexdigit_eq_hexval hb
    rw [decoded, if_neg hc, if_pos ⟨rfl, ha, hb⟩, ih hw, QueryDecoder_decode, if_pos rfl,
      hva.1, hvb.1, Nat.mod_eq_of_lt (by omega)]
  | case8 c a b rest hc hx ih =>
    rw [cstr_cons, if_neg hc] at h ⊢
    have hw : wellFormed (cstr (a :: b :: rest)) = true := by
      simp only [wellFormed, Bool.and_eq_true] at h; exact h.2
    have hg := isxdigit_cstr_getD (a :: b :: rest)
    have h37 : c ≠ 37 := by
      rintro rfl
      simp only [wellFormed, bne_self_eq_false, Bool.false_or, Bool.and_eq_true] at h
      apply hx
      have h1 := hg.1 ▸ h.1.1
      have h2 := hg.2 h.1.1 ▸ h.1.2
      exact ⟨rfl, by simpa using h1, by simpa using h2⟩
    rw [QueryDecoder_decode_cons_of_ne c _ h37, ← ih hw, decoded, if_neg hc, if_neg hx]

theorem cstr_idem (l : List Nat) : cstr (cstr l) = cstr l := by
  induction l with
  | nil => rfl
  | cons c rest ih =>
    by_cases hc : c = 0
    · simp [cstr, hc]
    · simp [cstr, hc, ih]

theorem cstr_append_zero (l : List Nat) : cstr (cstr l ++ [0]) = cstr l := by
  induction l with
  | nil => rfl
  | cons c rest ih =>
    by_cases hc : c = 0
    · simp [cstr, hc]
    · simp [cstr, hc, ih]

/-- C7: on every well-formed input (every `%` followed by two hexadecimal
digits) the bytes `urldecode2` writes before its terminator are the reference
decoding of the spec (`%XY` to the byte `16*hexval X + hexval Y`, `+` to a
space, the rest copied); `decode("a%20b+c") = "a b c"` and `decode("") = ""`. -/
theorem urldecode2_reference :
    (∀ src : List Nat, wellFormed (cstr src) = true →
      urldecode2 src = some (QueryDecoder_decode (cstr src) ++ [0])) ∧
    urldecode2 (bytes "a%20b+c") = some (bytes "a b c" ++ [0]) ∧
    urldecode2 (bytes "") = some (bytes "" ++ [0]) := by
  refine ⟨fun src h => ?_, by decide, by decide⟩
  rw [urldecode2_eq, decoded_eq_reference src h]

/-- C7 at the input `%41%6a+z%2F`: it is well formed and decodes to `Aj z/`. -/
theorem urldecode2_reference_witness :
    wellFormed (cstr (bytes "%41%6a+z%2F")) = true ∧
    QueryDecoder_decode (cstr (bytes "%41%6a+z%2F")) = bytes "Aj z/" ∧
    urldecode2 (bytes "%41%6a+z%2F") =
      some (QueryDecoder_decode (cstr (bytes "%41%6a+z%2F")) ++ [0]) :=
  ⟨by decide, by decide, urldecode2_reference.1 (bytes "%41%6a+z%2F") (by decide)⟩

/-- C8: on an input string with neither `%` nor `+`, `urldecode2` writes the
input string and the terminator: the output string equals the input string. -/
theorem urldecode2_identity (src : List Nat) (h : ∀ c ∈ cstr src, c ≠ 37 ∧ c ≠ 43) :
    ∃ out, urldecode2 src = some out ∧ out = cstr src ++ [0] ∧ cstr out = cstr src := by
  refine ⟨cstr src ++ [0], ?_, rfl, cstr_append_zero src⟩
  rw [urldecode2_eq, decoded_eq_cstr src h]

/-- C8 at the input `MyNet-2.4GHz`. -/
theorem urldecode2_identity_witness :
    (∀ c ∈ cstr (bytes "MyNet-2.4GHz"), c ≠ 37 ∧ c ≠ 43) ∧
    ∃ out, urldecode2 (bytes "MyNet-2.4GHz") = some out ∧
      out = cstr (bytes "MyNet-2.4GHz") ++ [0] ∧ cstr out = cstr (bytes "MyNet-2.4GHz") :=
  ⟨by decide, urldecode2_identity (bytes "MyNet-2.4GHz") (by decide)⟩

/-- C9: on every input, well-formed or not, `urldecode2` returns having written
at most `strlen src + 1` bytes, the last of them the terminator; so a value
shorter than the 32-byte arrays of `setWifiParams` is decoded within them. -/
theorem urldecode2_never_expands (src : List Nat) :
    ∃ out, urldecode2 src = some out ∧ out.length ≤ strlen src + 1 ∧
      out.getLast? = some 0 ∧
      (strlen src < sizeof_urlpart → out.length ≤ sizeof_urlpart) := by
  have hlen := decoded_length_le src
  refine ⟨decoded src ++ [0], urldecode2_eq src, ?_, ?_, fun h => ?_⟩
  · simp only [List.length_append, List.length_singleton]; omega
  · simp
  · simp only [List.length_append, List.length_singleton]; omega

/-- C9 at a 31-character value made of malformed escapes: 32 bytes are written. -/
theorem urldecode2_never_expands_witness :
    strlen (List.replicate 31 37) < sizeof_urlpart ∧
    (urldecode2 (List.replicate 31 37)).map List.length = some 32 ∧
    ∃ out, urldecode2 (List.replicate 31 37) = some out ∧
      out.length ≤ strlen (List.replicate 31 37) + 1 ∧ out.getLast? = some 0 ∧
      (strlen (List.replicate 31 37) < sizeof_urlpart → out.length ≤ sizeof_urlpart) :=
  ⟨by decide, by decide, urldecode2_never_expands (List.replicate 31 37)⟩

/-! ## The event handler and the station connection -/

theorem handler_sta_start (st : Station) :
    wifi_event_handler st sta_start =
      ⟨st.s_retry_num, st.s_wifi_event_group, st.esp_wifi_connect_calls + 1⟩ := by
  simp [wifi_event_handler, sta_start, esp_wifi_connect, WIFI_EVENT_STA_START,
    WIFI_EVENT_AP_STACONNECTED, WIFI_EVENT_AP_STADISCONNECTED]

theorem handler_sta_disconnected_retry (st : Station) (h : st.s_retry_num < ESP_MAXIMUM_RETRY) :
    wifi_event_handler st sta_disconnected =
      ⟨st.s_retry_num + 1, st.s_wifi_event_group, st.esp_wifi_connect_calls + 1⟩ := by
  simp [wifi_event_handler, sta_disconnected, esp_wifi_connect, WIFI_EVENT_STA_START,
    WIFI_EVENT_STA_DISCONNECTED, WIFI_EVENT_AP_STACONNECTED, WIFI_EVENT_AP_STADISCONNECTED, h]

theorem station_eq {r r1 : Int} {b b1 c c1 : Nat} (hr : r = r1) (hb : b = b1) (hc : c = c1) :
    (⟨r, b, c⟩ : Station) = ⟨r1, b1, c1⟩ := by
  subst hr hb hc; rfl

theorem handler_sta_disconnected_fail (r : Int) (bits calls : Nat)
    (h : ¬ r < ESP_MAXIMUM_RETRY) :
    wifi_event_handler ⟨r, bits, calls⟩ sta_disconnected =
      ⟨r, bits ||| WIFI_FAIL_BIT, calls⟩ := by
  simp [wifi_event_handler, sta_disconnected, xEventGroupSetBits, WIFI_EVENT_STA_START,
    WIFI_EVENT_STA_DISCONNECTED, WIFI_EVENT_AP_STACONNECTED, WIFI_EVENT_AP_STADISCONNECTED, h]

theorem handler_sta_got_ip (st : Station) :
    wifi_event_handler st sta_got_ip =
      ⟨0, st.s_wifi_event_group ||| WIFI_CONNECTED_BIT, st.esp_wifi_connect_calls⟩ := by
  simp [wifi_event_handler, sta_got_ip, xEventGroupSetBits, IP_EVENT_STA_GOT_IP,
    WIFI_EVENT_AP_STACONNECTED, WIFI_EVENT_AP_STADISCONNECTED]

/-- After `k` disconnects while retries remain: `k` more join attempts, no bit set. -/
theorem deliver_disconnected (k : Nat) :
    ∀ (r : Int) (bits calls : Nat), r + k ≤ ESP_MAXIMUM_RETRY →
      deliver ⟨r, bits, calls⟩ (List.replicate k sta_disconnected) = ⟨r + k, bits, calls + k⟩ := by
  induction k with
  | zero => intro r bits calls _; simp [deliver]
  | succ k ih =>
    intro r bits calls h
    have hr : r < ESP_MAXIMUM_RETRY := by simp only [ESP_MAXIMUM_RETRY] at h ⊢; omega
    have := ih (r + 1) bits (calls + 1) (by simp only [ESP_MAXIMUM_RETRY] at h ⊢; omega)
    simp only [deliver, List.replicate_succ, List.foldl_cons] at this ⊢
    rw [handler_sta_disconnected_retry ⟨r, bits, calls⟩ hr, this]
    simp only [Station.mk.injEq, Nat.cast_add, Nat.cast_one]
    refine ⟨by omega, trivial, by omega⟩

/-- While no bit is set, the wait goes through `k` disconnects that still have a retry. -/
theorem wait_disconnected (k : Nat) (rest : List Event) :
    ∀ (r : Int) (calls : Nat), r + k ≤ ESP_MAXIMUM_RETRY →
      xEventGroupWaitBits ⟨r, 0, calls⟩ (List.replicate k sta_disconnected ++ rest) =
        xEventGroupWaitBits ⟨r + k, 0, calls + k⟩ rest := by
  induction k with
  | zero => intro r calls _; simp
  | succ k ih =>
    intro r calls h
    have hr : r < ESP_MAXIMUM_RETRY := by simp only [ESP_MAXIMUM_RETRY] at h ⊢; omega
    have := ih (r + 1) (calls + 1) (by simp only [ESP_MAXIMUM_RETRY] at h ⊢; omega)
    have hb : ¬ ((0 : Nat) &&& (WIFI_CONNECTED_BIT ||| WIFI_FAIL_BIT) ≠ 0) := by decide
    rw [List.replicate_succ, List.cons_append, xEventGroupWaitBits,
      if_neg hb, handler_sta_disconnected_retry ⟨r, 0, calls⟩ hr, this]
    congr 2
    · simp only [Nat.cast_add, Nat.cast_one]; omega
    · omega

/-- The wait returns as soon as a bit is set, whatever events follow. -/
theorem wait_of_bit_set (st : Station) (events : List Event)
    (h : st.s_wifi_event_group &&& (WIFI_CONNECTED_BIT ||| WIFI_FAIL_BIT) ≠ 0) :
    xEventGroupWaitBits st events = some st := by
  cases events <;> simp [xEventGroupWaitBits, h]

theorem wait_sta_start (r : Int) (calls : Nat) (events : List Event) :
    xEventGroupWaitBits ⟨r, 0, calls⟩ (sta_start :: events) =
      xEventGroupWaitBits ⟨r, 0, calls + 1⟩ events := by
  have hb : ¬ ((0 : Nat) &&& (WIFI_CONNECTED_BIT ||| WIFI_FAIL_BIT) ≠ 0) := by decide
  rw [xEventGroupWaitBits, if_neg hb, handler_sta_start]

/-- The station function in terms of the state at which the wait returns. -/
theorem wifi_init_sta_of_wait (w : World) (events : List Event) (st : Station)
    (h : xEventGroupWaitBits (xEventGroupCreate w.sta) events = some st) :
    wifi_init_sta_try_to_connect_to_wifi w events =
      some (if st.s_wifi_event_group &&& WIFI_CONNECTED_BIT ≠ 0 then
          if w.valid_wifi_credentials_in_NVS = false then
            (true, { w with sta := st, nvs_set_str_calls := w.nvs_set_str_calls ++
              [("nvs_ssid", cstr w.glob_wifi_config.ssid),
               ("nvs_password", cstr w.glob_wifi_config.password)] })
          else (true, { w with sta := st })
        else (false, { w with sta := st })) := by
  simp only [wifi_init_sta_try_to_connect_to_wifi, h, Option.map_some']
  by_cases hc : st.s_wifi_event_group &&& WIFI_CONNECTED_BIT ≠ 0
  · cases hv : w.valid_wifi_credentials_in_NVS <;> simp [hc, hv]
  · by_cases hf : st.s_wifi_event_group &&& WIFI_FAIL_BIT ≠ 0 <;> simp [hc, hf]

/-- C5: from retry counter 0, the events "station started" then "disconnected"
only: after `k ≤ MAX_RETRY` disconnects `1 + k` join attempts were issued, no
bit is set and the connect operation has not returned; the 11th disconnect
(`MAX_RETRY + 1`) sets the fail bit with 11 join attempts issued in all, and
the connect operation then returns false. -/
theorem retry_bound (w : World) (h0 : w.sta.s_retry_num = 0) :
    (∀ k : Nat, (k : Int) ≤ ESP_MAXIMUM_RETRY →
      deliver (xEventGroupCreate w.sta) (sta_start :: List.replicate k sta_disconnected) =
        ⟨k, 0, w.sta.esp_wifi_connect_calls + (1 + k)⟩ ∧
      wifi_init_sta_try_to_connect_to_wifi w (sta_start :: List.replicate k sta_disconnected) =
        none) ∧
    ((11 : Int) = ESP_MAXIMUM_RETRY + 1 ∧
      deliver (xEventGroupCreate w.sta) (sta_start :: List.replicate 11 sta_disconnected) =
        ⟨ESP_MAXIMUM_RETRY, WIFI_FAIL_BIT, w.sta.esp_wifi_connect_calls + 11⟩) ∧
    (∀ n : Nat,
      wifi_init_sta_try_to_connect_to_wifi w
          (sta_start :: List.replicate (11 + n) sta_disconnected) =
        some (false, { w with sta :=
          ⟨ESP_MAXIMUM_RETRY, WIFI_FAIL_BIT, w.sta.esp_wifi_connect_calls + 11⟩ })) := by
  have hcreate : xEventGroupCreate w.sta = ⟨0, 0, w.sta.esp_wifi_connect_calls⟩ := by
    simp [xEventGroupCreate, h0]
  have hstart : ∀ l, deliver ⟨0, 0, w.sta.esp_wifi_connect_calls⟩ (sta_start :: l) =
      deliver ⟨0, 0, w.sta.esp_wifi_connect_calls + 1⟩ l := by
    intro l; simp [deliver, handler_sta_start]
  refine ⟨fun k hk => ⟨?_, ?_⟩, ⟨by decide, ?_⟩, fun n => ?_⟩
  · rw [hcreate, hstart, deliver_disconnected k 0 0 _ (by simpa using hk)]
    simp only [Station.mk.injEq, zero_add, true_and]
    omega
  · have hw := wait_disconnected k [] 0 (w.sta.esp_wifi_connect_calls + 1) (by simpa using hk)
    simp only [List.append_nil] at hw
    simp only [wifi_init_sta_try_to_connect_to_wifi, hcreate, wait_sta_start, hw]
    simp [xEventGroupWaitBits]
  · have h10 := deliver_disconnected 10 0 0 (w.sta.esp_wifi_connect_calls + 1) (by decide)
    have hge : ¬ ((0 : Int) + (10 : Nat) < ESP_MAXIMUM_RETRY) := by decide
    rw [hcreate, hstart, show (11 : Nat) = 10 + 1 from rfl, List.replicate_succ']
    simp only [deliver, List.foldl_append, List.foldl_cons, List.foldl_nil] at h10 ⊢
    rw [h10, handler_sta_disconnected_fail _ _ _ hge]
    exact station_eq (by decide) (by decide) (by omega)
  · have hsplit : List.replicate (11 + n) sta_disconnected =
        List.replicate 10 sta_disconnected ++
          (sta_disconnected :: List.replicate n sta_disconnected) := by
      rw [show 11 + n = 10 + (n + 1) by omega, List.replicate_add]; rfl
    have hw := wait_disconnected 10 (sta_disconnected :: List.replicate n sta_disconnected) 0
      (w.sta.esp_wifi_connect_calls + 1) (by decide)
    have hb : ¬ ((0 : Nat) &&& (WIFI_CONNECTED_BIT ||| WIFI_FAIL_BIT) ≠ 0) := by decide
    have hge : ¬ ((0 : Int) + (10 : Nat) < ESP_MAXIMUM_RETRY) := by decide
    have hset : ((0 : Nat) ||| WIFI_FAIL_BIT) &&& (WIFI_CONNECTED_BIT ||| WIFI_FAIL_BIT) ≠ 0 := by
      decide
    have hwait : xEventGroupWaitBits (xEventGroupCreate w.sta)
        (sta_start :: List.replicate (11 + n) sta_disconnected) =
        some ⟨ESP_MAXIMUM_RETRY, WIFI_FAIL_BIT, w.sta.esp_wifi_connect_calls + 11⟩ := by
      rw [hcreate, wait_sta_start, hsplit, hw, xEventGroupWaitBits, if_neg hb,
        handler_sta_disconnected_fail _ _ _ hge, wait_of_bit_set _ _ hset]
      exact congrArg some (station_eq (by decide) (by decide) (by omega))
    have hnc : ¬ (WIFI_FAIL_BIT &&& WIFI_CONNECTED_BIT ≠ 0) := by decide
    rw [wifi_init_sta_of_wait w _ _ hwait, if_neg hnc]

/-- C5 on a device at first boot: retry counter 0, and the 11 join attempts. -/
theorem retry_bound_witness :
    first_boot.sta.s_retry_num = 0 ∧
    (wifi_init_sta_try_to_connect_to_wifi first_boot
        (sta_start :: List.replicate 11 sta_disconnected)).map (fun r => (r.1, r.2.sta)) =
      some (false, ⟨10, 2, 11⟩) ∧
    wifi_init_sta_try_to_connect_to_wifi first_boot
        (sta_start :: List.replicate (11 + 0) sta_disconnected) =
      some (false, { first_boot with sta :=
        ⟨ESP_MAXIMUM_RETRY, WIFI_FAIL_BIT, first_boot.sta.esp_wifi_connect_calls + 11⟩ }) :=
  ⟨rfl, by decide, (retry_bound first_boot rfl).2.2 0⟩

/-- C10: from retry counter 0, the events "station started" then "address
acquired": one join attempt, the connected bit set and the fail bit not, the
retry counter 0, and the connect operation returns true. -/
theorem success_path (w : World) (h0 : w.sta.s_retry_num = 0) :
    deliver (xEventGroupCreate w.sta) [sta_start, sta_got_ip] =
      ⟨0, WIFI_CONNECTED_BIT, w.sta.esp_wifi_connect_calls + 1⟩ ∧
    WIFI_CONNECTED_BIT &&& WIFI_CONNECTED_BIT ≠ 0 ∧
    WIFI_CONNECTED_BIT &&& WIFI_FAIL_BIT = 0 ∧
    ∃ w1, wifi_init_sta_try_to_connect_to_wifi w [sta_start, sta_got_ip] = some (true, w1) ∧
      _connect_to_network w [sta_start, sta_got_ip] = some (true, w1) ∧
      w1.sta = ⟨0, WIFI_CONNECTED_BIT, w.sta.esp_wifi_connect_calls + 1⟩ := by
  have hcreate : xEventGroupCreate w.sta = ⟨0, 0, w.sta.esp_wifi_connect_calls⟩ := by
    simp [xEventGroupCreate, h0]
  have hb : ¬ ((0 : Nat) &&& (WIFI_CONNECTED_BIT ||| WIFI_FAIL_BIT) ≠ 0) := by decide
  have hor : (0 : Nat) ||| WIFI_CONNECTED_BIT = WIFI_CONNECTED_BIT := by decide
  have hwait : xEventGroupWaitBits (xEventGroupCreate w.sta) [sta_start, sta_got_ip] =
      some ⟨0, WIFI_CONNECTED_BIT, w.sta.esp_wifi_connect_calls + 1⟩ := by
    have hset : WIFI_CONNECTED_BIT &&& (WIFI_CONNECTED_BIT ||| WIFI_FAIL_BIT) ≠ 0 := by decide
    rw [hcreate, wait_sta_start, xEventGroupWaitBits, if_neg hb, handler_sta_got_ip, hor,
      wait_of_bit_set _ _ hset]
  have hinit := wifi_init_sta_of_wait w _ _ hwait
  have hcb : WIFI_CONNECTED_BIT &&& WIFI_CONNECTED_BIT ≠ 0 := by decide
  rw [if_pos hcb] at hinit
  refine ⟨?_, by decide, by decide, ?_⟩
  · rw [hcreate]
    simp [deliver, handler_sta_start, handler_sta_got_ip, hor]
  · cases hv : w.valid_wifi_credentials_in_NVS
    · simp only [hv, if_true] at hinit
      exact ⟨_, hinit, by simp [_connect_to_network, hinit], rfl⟩
    · simp only [hv, Bool.true_eq_false, if_false] at hinit
      exact ⟨_, hinit, by simp [_connect_to_network, hinit], rfl⟩

/-- C10 on a device at first boot. -/
theorem success_path_witness :
    first_boot.sta.s_retry_num = 0 ∧
    (wifi_init_sta_try_to_connect_to_wifi first_boot [sta_start, sta_got_ip]).map
        (fun r => (r.1, r.2.sta)) = some (true, ⟨0, 1, 1⟩) ∧
    ∃ w1, wifi_init_sta_try_to_connect_to_wifi first_boot [sta_start, sta_got_ip] =
        some (true, w1) ∧
      _connect_to_network first_boot [sta_start, sta_got_ip] = some (true, w1) ∧
      w1.sta = ⟨0, WIFI_CONNECTED_BIT, first_boot.sta.esp_wifi_connect_calls + 1⟩ :=
  ⟨rfl, by decide, (success_path first_boot rfl).2.2.2⟩

/-! ## The store lookup, the portal and the controller -/

theorem sameDevice_refl (w : World) : sameDevice w w := ⟨rfl, rfl, rfl, rfl, rfl, rfl⟩

theorem sameDevice_trans {w w1 w2 : World} (h1 : sameDevice w w1) (h2 : sameDevice w1 w2) :
    sameDevice w w2 := by
  unfold sameDevice at h1 h2 ⊢
  refine ⟨?_, ?_, ?_, ?_, ?_, ?_⟩
  · rw [h2.1, h1.1]
  · rw [h2.2.1, h1.2.1]
  · rw [h2.2.2.1, h1.2.2.1]
  · rw [h2.2.2.2.1, h1.2.2.2.1]
  · rw [h2.2.2.2.2.1, h1.2.2.2.2.1]
  · rw [h2.2.2.2.2.2, h1.2.2.2.2.2]

/-- The lookup answers by the password read alone. -/
theorem _credentials_stored_in_NVS_fst (w : World) :
    (_credentials_stored_in_NVS w).1 =
      (w.nvs_open_ok && match w.nvs_password with
        | .ok _ => true
        | _ => false) := by
  obtain ⟨o, s, p, c, st, f, g, v⟩ := w
  unfold _credentials_stored_in_NVS
  cases o <;> cases s <;> cases p <;> simp

theorem _credentials_stored_in_NVS_frame (w : World) :
    sameDevice w (_credentials_stored_in_NVS w).2 ∧
    (_credentials_stored_in_NVS w).2.network_credentials_sta_set =
      w.network_credentials_sta_set := by
  obtain ⟨o, s, p, c, st, f, g, v⟩ := w
  unfold _credentials_stored_in_NVS sameDevice
  cases o <;> cases s <;> cases p <;> simp

/-- The `/control` handler in closed form: it always answers `ESP_OK`; with a
non-empty query string that is read, it stores what was decoded for each key
found and raises the flag. -/
theorem setWifiParams_eq (kv : QueryKeyValue) (w : World) (req : httpd_req_t) :
    setWifiParams kv w req =
      some (.ESP_OK,
        if 0 < strlen req.query ∧ req.query_str_ok = true then
          { w with
            glob_wifi_config :=
              ⟨match kv req.query "ssid" sizeof_urlpart with
                | some urlpart => cstr (decoded urlpart ++ [0])
                | none => w.glob_wifi_config.ssid,
               match kv req.query "passkey" sizeof_urlpart with
                | some urlpart => cstr (decoded urlpart ++ [0])
                | none => w.glob_wifi_config.password⟩,
            network_credentials_sta_set := true }
        else w) := by
  unfold setWifiParams
  by_cases hq : 0 < strlen req.query
  · cases hok : req.query_str_ok
    · simp [hq]
    · cases hs : kv req.query "ssid" sizeof_urlpart <;>
        cases hp : kv req.query "passkey" sizeof_urlpart <;>
        simp [hq, hs, hp, urldecode2_eq]
  · have : ¬ (strlen req.query + 1 > 1) := by omega
    simp [hq, this]

theorem setWifiParams_frame (kv : QueryKeyValue) (w : World) (req : httpd_req_t) :
    ∃ w1, setWifiParams kv w req = some (.ESP_OK, w1) ∧ sameDevice w w1 := by
  rw [setWifiParams_eq]
  refine ⟨_, rfl, ?_⟩
  split
  · exact ⟨rfl, rfl, rfl, rfl, rfl, rfl⟩
  · exact sameDevice_refl w

theorem startHTTPServer_frame (kv : QueryKeyValue) (w : World) (req : httpd_req_t) :
    ∃ w1, startHTTPServer kv w req = some (.ESP_OK, w1) ∧ sameDevice w w1 := by
  unfold startHTTPServer
  cases req.uri
  · simp only [index_get_handler]
    have hl := (_credentials_stored_in_NVS_frame w).1
    cases hf : (_credentials_stored_in_NVS w).1
    · obtain ⟨w1, h1, hs⟩ := setWifiParams_frame kv (_credentials_stored_in_NVS w).2 req
      exact ⟨w1, by simp [h1], sameDevice_trans hl hs⟩
    · exact ⟨_, by simp, hl⟩
  · exact setWifiParams_frame kv w req

theorem serve_frame (kv : QueryKeyValue) (reqs : List httpd_req_t) :
    ∀ w, ∃ w1, serve kv w reqs = some w1 ∧ sameDevice w w1 := by
  induction reqs with
  | nil => intro w; exact ⟨w, rfl, sameDevice_refl w⟩
  | cons req reqs ih =>
    intro w
    obtain ⟨w1, h1, hs1⟩ := startHTTPServer_frame kv w req
    obtain ⟨w2, h2, hs2⟩ := ih w1
    exact ⟨w2, by simp [serve, h1, h2], sameDevice_trans hs1 hs2⟩

/-- The portal phase, when it ends, leaves the station state and the write log
as they were and has cleared `valid_wifi_credentials_in_NVS`. -/
theorem _start_soft_AP_mode_and_get_credentials_frame (kv : QueryKeyValue) (w w1 : World)
    (reqs : List httpd_req_t)
    (h : _start_soft_AP_mode_and_get_credentials kv w reqs = some w1) :
    w1.sta = w.sta ∧ w1.nvs_set_str_calls = w.nvs_set_str_calls ∧
      w1.valid_wifi_credentials_in_NVS = false := by
  unfold _start_soft_AP_mode_and_get_credentials at h
  obtain ⟨w2, h2, hs⟩ := serve_frame kv reqs { w with valid_wifi_credentials_in_NVS := false }
  dsimp only at h
  rw [h2] at h
  simp only [Option.some_bind] at h
  split at h
  · cases h
    exact ⟨hs.1, hs.2.1, hs.2.2.1⟩
  · cases h

/-- The controller: the credential phase, then the station function. -/
theorem connect_to_network_eq (kv : QueryKeyValue) (w : World) (reqs : List httpd_req_t)
    (events : List Event) :
    connect_to_network kv w reqs events =
      (if (_credentials_stored_in_NVS w).1 = true then some (_credentials_stored_in_NVS w).2
        else _start_soft_AP_mode_and_get_credentials kv (_credentials_stored_in_NVS w).2 reqs).bind
        fun w2 => wifi_init_sta_try_to_connect_to_wifi w2 events := by
  have hid : ∀ o : Option (Bool × World),
      (o.map fun r => if r.1 = true then (true, r.2) else (false, r.2)) = o := by
    intro o
    cases o with
    | none => rfl
    | some r => obtain ⟨b, w⟩ := r; cases b <;> rfl
  unfold connect_to_network _connect_to_network _save_credentials
  generalize _credentials_stored_in_NVS w = r
  obtain ⟨found, w1⟩ := r
  cases found <;> simp [hid]

/-- C1: on a freshly constructed object, when the store lookup reports
credentials present and the wait observes the connected bit,
`connect_to_network` returns true and calls `nvs_set_str` zero times (the log
of calls is the one it started with). -/
theorem idempotent_persistence (kv : QueryKeyValue) (w : World) (reqs : List httpd_req_t)
    (events : List Event) (st : Station)
    (hfound : (_credentials_stored_in_NVS (wifi_provisioning w)).1 = true)
    (hwait : xEventGroupWaitBits (xEventGroupCreate w.sta) events = some st)
    (hconn : st.s_wifi_event_group &&& WIFI_CONNECTED_BIT ≠ 0) :
    ∃ w1, connect_to_network kv (wifi_provisioning w) reqs events = some (true, w1) ∧
      w1.nvs_set_str_calls = w.nvs_set_str_calls ∧
      w1.nvs_set_str_calls.length - w.nvs_set_str_calls.length = 0 := by
  obtain ⟨⟨hsta, hcalls, hvalid, -⟩, -⟩ := _credentials_stored_in_NVS_frame (wifi_provisioning w)
  have hsta2 : (_credentials_stored_in_NVS (wifi_provisioning w)).2.sta = w.sta := hsta
  have hvalid2 : (_credentials_stored_in_NVS (wifi_provisioning w)).2.valid_wifi_credentials_in_NVS
      = true := hvalid
  have hcalls2 : (_credentials_stored_in_NVS (wifi_provisioning w)).2.nvs_set_str_calls =
      w.nvs_set_str_calls := hcalls
  rw [connect_to_network_eq, if_pos hfound, Option.some_bind,
    wifi_init_sta_of_wait _ events st (by rw [hsta2]; exact hwait), if_pos hconn, hvalid2]
  refine ⟨_, rfl, ?_, ?_⟩
  · simpa using hcalls2
  · simp [hcalls2]

/-- C1 on a store holding both keys, with the events "station started" and
"address acquired". -/
theorem idempotent_persistence_witness :
    (_credentials_stored_in_NVS
      (wifi_provisioning (provisioned (bytes "MyNet") (bytes "Secr3t!")))).1 = true ∧
    (connect_to_network query_key_value
        (wifi_provisioning (provisioned (bytes "MyNet") (bytes "Secr3t!"))) []
        [sta_start, sta_got_ip]).map (fun r => (r.1, r.2.nvs_set_str_calls)) = some (true, []) ∧
    ∃ w1, connect_to_network query_key_value
        (wifi_provisioning (provisioned (bytes "MyNet") (bytes "Secr3t!"))) []
        [sta_start, sta_got_ip] = some (true, w1) ∧
      w1.nvs_set_str_calls = (provisioned (bytes "MyNet") (bytes "Secr3t!")).nvs_set_str_calls ∧
      w1.nvs_set_str_calls.length -
        (provisioned (bytes "MyNet") (bytes "Secr3t!")).nvs_set_str_calls.length = 0 :=
  ⟨by decide, by decide,
    idempotent_persistence query_key_value (provisioned (bytes "MyNet") (bytes "Secr3t!")) []
      [sta_start, sta_got_ip] ⟨0, 1, 1⟩ (by decide) (by decide) (by decide)⟩

theorem serve_append (kv : QueryKeyValue) (before after : List httpd_req_t) :
    ∀ w, serve kv w (before ++ after) = (serve kv w before).bind fun w1 => serve kv w1 after := by
  induction before with
  | nil => intro w; rfl
  | cons req before ih =>
    intro w
    simp only [List.cons_append, serve]
    cases startHTTPServer kv w req with
    | none => rfl
    | some r => simp only [Option.some_bind]; exact ih r.2

/-- C2: when the lookup finds no credentials, the portal serves any requests
and then, on the `/control` route, a query string in which the helper finds
`ssid` and `passkey`, and the wait observes the connected bit: the pending
credentials are the decoded values, `nvs_set_str` is called once for each key
with exactly those values, and `connect_to_network` returns true. -/
theorem portal_path (kv : QueryKeyValue) (w : World) (before : List httpd_req_t)
    (query urlssid urlpass : List Nat) (events : List Event) (st : Station)
    (hnone : (_credentials_stored_in_NVS (wifi_provisioning w)).1 = false)
    (hquery : 0 < strlen query)
    (hssid : kv query "ssid" sizeof_urlpart = some urlssid)
    (hpass : kv query "passkey" sizeof_urlpart = some urlpass)
    (hwait : xEventGroupWaitBits (xEventGroupCreate w.sta) events = some st)
    (hconn : st.s_wifi_event_group &&& WIFI_CONNECTED_BIT ≠ 0) :
    ∃ ssid passkey w1,
      urldecode2 urlssid = some ssid ∧ urldecode2 urlpass = some passkey ∧
      connect_to_network kv (wifi_provisioning w) (before ++ [⟨.control, query, true⟩]) events =
        some (true, w1) ∧
      w1.glob_wifi_config = ⟨cstr ssid, cstr passkey⟩ ∧
      w1.nvs_set_str_calls = w.nvs_set_str_calls ++
        [("nvs_ssid", cstr ssid), ("nvs_password", cstr passkey)] := by
  obtain ⟨⟨hsta, hcalls, -⟩, -⟩ := _credentials_stored_in_NVS_frame (wifi_provisioning w)
  have hsta2 : (_credentials_stored_in_NVS (wifi_provisioning w)).2.sta = w.sta := hsta
  have hcalls2 : (_credentials_stored_in_NVS (wifi_provisioning w)).2.nvs_set_str_calls =
      w.nvs_set_str_calls := hcalls
  obtain ⟨w2, hserve, hs1, hs2, hs3, -⟩ := serve_frame kv before
    { (_credentials_stored_in_NVS (wifi_provisioning w)).2 with
      valid_wifi_credentials_in_NVS := false }
  have hs1b : w2.sta = w.sta := hs1.trans hsta2
  have hs2b : w2.nvs_set_str_calls = w.nvs_set_str_calls := hs2.trans hcalls2
  have hs3b : w2.valid_wifi_credentials_in_NVS = false := hs3
  refine ⟨decoded urlssid ++ [0], decoded urlpass ++ [0], ?_⟩
  rw [connect_to_network_eq, if_neg (by simp [hnone])]
  simp only [_start_soft_AP_mode_and_get_credentials, serve_append, hserve, serve,
    startHTTPServer, setWifiParams_eq, hquery, hssid, hpass, and_self, if_true,
    Option.some_bind]
  rw [wifi_init_sta_of_wait _ events st (by simpa [hs1b] using hwait), if_pos hconn]
  simp only [hs3b, if_true]
  refine ⟨_, urldecode2_eq _, urldecode2_eq _, rfl, rfl, ?_⟩
  simp [hs2b, cstr_idem]

/-- C2 on a device at first boot that serves the form on `/`, then receives
`ssid=MyNet&passkey=Secr3t%21` on `/control`, and connects at the first
attempt: the credentials `MyNet`, `Secr3t!`. -/
theorem portal_path_witness :
    (connect_to_network query_key_value (wifi_provisioning first_boot)
        ([⟨.index, [], false⟩] ++ [⟨.control, bytes "ssid=MyNet&passkey=Secr3t%21", true⟩])
        [sta_start, sta_got_ip]).map
      (fun r => (r.1, r.2.glob_wifi_config, r.2.nvs_set_str_calls)) =
      some (true, ⟨bytes "MyNet", bytes "Secr3t!"⟩,
        [("nvs_ssid", bytes "MyNet"), ("nvs_password", bytes "Secr3t!")]) ∧
    ∃ ssid passkey w1,
      urldecode2 (bytes "MyNet") = some ssid ∧ urldecode2 (bytes "Secr3t%21") = some passkey ∧
      connect_to_network query_key_value (wifi_provisioning first_boot)
        ([⟨.index, [], false⟩] ++ [⟨.control, bytes "ssid=MyNet&passkey=Secr3t%21", true⟩])
        [sta_start, sta_got_ip] = some (true, w1) ∧
      w1.glob_wifi_config = ⟨cstr ssid, cstr passkey⟩ ∧
      w1.nvs_set_str_calls = first_boot.nvs_set_str_calls ++
        [("nvs_ssid", cstr ssid), ("nvs_password", cstr passkey)] :=
  ⟨by decide,
    portal_path query_key_value first_boot [⟨.index, [], false⟩]
      (bytes "ssid=MyNet&passkey=Secr3t%21")
      (bytes "MyNet") (bytes "Secr3t%21") [sta_start, sta_got_ip] ⟨0, 1, 1⟩
      (by decide) (by decide) (by decide) (by decide) (by decide) (by decide)⟩

/-- C3: when the wait ends with the fail bit set and the connected bit not
set, `connect_to_network` returns false and calls `nvs_set_str` zero times,
both when the credentials came from the store and when they came from the
portal; and `connect_to_network` returns true only if the wait observed the
connected bit. -/
theorem failure_outcome (kv : QueryKeyValue) (w : World) (reqs : List httpd_req_t)
    (events : List Event) :
    (∀ st, (_credentials_stored_in_NVS (wifi_provisioning w)).1 = true →
      xEventGroupWaitBits (xEventGroupCreate w.sta) events = some st →
      st.s_wifi_event_group &&& WIFI_FAIL_BIT ≠ 0 →
      st.s_wifi_event_group &&& WIFI_CONNECTED_BIT = 0 →
      ∃ w1, connect_to_network kv (wifi_provisioning w) reqs events = some (false, w1) ∧
        w1.nvs_set_str_calls = w.nvs_set_str_calls) ∧
    (∀ st w2, (_credentials_stored_in_NVS (wifi_provisioning w)).1 = false →
      _start_soft_AP_mode_and_get_credentials kv
        (_credentials_stored_in_NVS (wifi_provisioning w)).2 reqs = some w2 →
      xEventGroupWaitBits (xEventGroupCreate w.sta) events = some st →
      st.s_wifi_event_group &&& WIFI_FAIL_BIT ≠ 0 →
      st.s_wifi_event_group &&& WIFI_CONNECTED_BIT = 0 →
      ∃ w1, connect_to_network kv (wifi_provisioning w) reqs events = some (false, w1) ∧
        w1.nvs_set_str_calls = w.nvs_set_str_calls) ∧
    (∀ w1, connect_to_network kv (wifi_provisioning w) reqs events = some (true, w1) →
      ∃ st, xEventGroupWaitBits (xEventGroupCreate w.sta) events = some st ∧
        st.s_wifi_event_group &&& WIFI_CONNECTED_BIT ≠ 0) := by
  obtain ⟨⟨hsta, hcalls, -⟩, -⟩ := _credentials_stored_in_NVS_frame (wifi_provisioning w)
  have hsta2 : (_credentials_stored_in_NVS (wifi_provisioning w)).2.sta = w.sta := hsta
  have hcalls2 : (_credentials_stored_in_NVS (wifi_provisioning w)).2.nvs_set_str_calls =
      w.nvs_set_str_calls := hcalls
  refine ⟨fun st hfound hwait _ hnc => ?_, fun st w2 hnone hportal hwait _ hnc => ?_,
    fun w1 hrun => ?_⟩
  · rw [connect_to_network_eq, if_pos hfound, Option.some_bind,
      wifi_init_sta_of_wait _ events st (by rw [hsta2]; exact hwait), if_neg (by simp [hnc])]
    exact ⟨_, rfl, hcalls2⟩
  · obtain ⟨psta, pcalls, -⟩ := _start_soft_AP_mode_and_get_credentials_frame kv _ w2 reqs hportal
    rw [connect_to_network_eq, if_neg (by simp [hnone]), hportal, Option.some_bind,
      wifi_init_sta_of_wait _ events st (by rw [psta, hsta2]; exact hwait),
      if_neg (by simp [hnc])]
    exact ⟨_, rfl, pcalls.trans hcalls2⟩
  · rw [connect_to_network_eq] at hrun
    obtain ⟨w2, hpre, hsta3⟩ : ∃ w2,
        (if (_credentials_stored_in_NVS (wifi_provisioning w)).1 = true then
          some (_credentials_stored_in_NVS (wifi_provisioning w)).2
        else _start_soft_AP_mode_and_get_credentials kv
          (_credentials_stored_in_NVS (wifi_provisioning w)).2 reqs) = some w2 ∧
        w2.sta = w.sta := by
      by_cases hf : (_credentials_stored_in_NVS (wifi_provisioning w)).1 = true
      · exact ⟨_, if_pos hf, hsta2⟩
      · rw [if_neg hf] at hrun ⊢
        cases hp : _start_soft_AP_mode_and_get_credentials kv
            (_credentials_stored_in_NVS (wifi_provisioning w)).2 reqs with
        | none => rw [hp] at hrun; cases hrun
        | some w2 =>
          exact ⟨w2, rfl,
            (_start_soft_AP_mode_and_get_credentials_frame kv _ w2 reqs hp).1.trans hsta2⟩
    rw [hpre, Option.some_bind] at hrun
    cases hw : xEventGroupWaitBits (xEventGroupCreate w.sta) events with
    | none =>
      simp [wifi_init_sta_try_to_connect_to_wifi, hsta3, hw] at hrun
    | some st =>
      refine ⟨st, rfl, fun hzero => ?_⟩
      rw [wifi_init_sta_of_wait w2 events st (by rw [hsta3]; exact hw),
        if_neg (by simp [hzero])] at hrun
      cases hrun

/-- C3 on a store holding both keys whose network is unreachable (eleven
disconnects), and on a device at first boot whose portal credentials are
unreachable: false, and no `nvs_set_str` call. -/
theorem failure_outcome_witness :
    (connect_to_network query_key_value
        (wifi_provisioning (provisioned (bytes "MyNet") (bytes "Secr3t!"))) []
        (sta_start :: List.replicate 11 sta_disconnected)).map
      (fun r => (r.1, r.2.nvs_set_str_calls)) = some (false, []) ∧
    (connect_to_network query_key_value (wifi_provisioning first_boot)
        [⟨.control, bytes "ssid=MyNet&passkey=Secr3t%21", true⟩]
        (sta_start :: List.replicate 11 sta_disconnected)).map
      (fun r => (r.1, r.2.nvs_set_str_calls)) = some (false, []) ∧
    (∃ w1, connect_to_network query_key_value
        (wifi_provisioning (provisioned (bytes "MyNet") (bytes "Secr3t!"))) []
        (sta_start :: List.replicate 11 sta_disconnected) = some (false, w1) ∧
      w1.nvs_set_str_calls =
        (provisioned (bytes "MyNet") (bytes "Secr3t!")).nvs_set_str_calls) ∧
    (∃ w1, connect_to_network query_key_value (wifi_provisioning first_boot)
        [⟨.control, bytes "ssid=MyNet&passkey=Secr3t%21", true⟩]
        (sta_start :: List.replicate 11 sta_disconnected) = some (false, w1) ∧
      w1.nvs_set_str_calls = first_boot.nvs_set_str_calls) :=
  ⟨by decide, by decide,
    (failure_outcome query_key_value (provisioned (bytes "MyNet") (bytes "Secr3t!")) []
      (sta_start :: List.replicate 11 sta_disconnected)).1 ⟨10, 2, 11⟩
      (by decide) (by decide) (by decide) (by decide),
    (failure_outcome query_key_value first_boot
      [⟨.control, bytes "ssid=MyNet&passkey=Secr3t%21", true⟩]
      (sta_start :: List.replicate 11 sta_disconnected)).2.1 ⟨10, 2, 11⟩
      { first_boot with
        network_credentials_sta_set := true,
        glob_wifi_config := ⟨bytes "MyNet", bytes "Secr3t!"⟩ }
      (by decide) (by decide) (by decide) (by decide) (by decide)⟩

/-- C4 (the code departs from the claim): with the store opened, the ssid key
absent and the password key present, `_credentials_stored_in_NVS` returns
true; in general its answer is that of the password read alone. -/
theorem lookup_true_without_ssid :
    ({ first_boot with nvs_password := .ok (bytes "Secr3t!") } : World).nvs_open_ok = true ∧
    ({ first_boot with nvs_password := .ok (bytes "Secr3t!") } : World).nvs_ssid = .not_found ∧
    (_credentials_stored_in_NVS { first_boot with nvs_password := .ok (bytes "Secr3t!") }).1 =
      true ∧
    (∀ w : World, w.nvs_open_ok = true →
      ((_credentials_stored_in_NVS w).1 = true ↔ ∃ password, w.nvs_password = .ok password)) := by
  refine ⟨rfl, rfl, by decide, fun w ho => ?_⟩
  rw [_credentials_stored_in_NVS_fst, ho]
  cases w.nvs_password <;> simp

/-- C6 (the claim fails): a request whose query string holds only `passkey`,
so that the helper finds no `ssid`, handled while the flag is down: the
handler answers `ESP_OK` and the flag is raised. -/
theorem setWifiParams_raises_flag_without_ssid :
    query_key_value (bytes "passkey=Secr3t%21") "ssid" sizeof_urlpart = none ∧
    (wifi_provisioning first_boot).network_credentials_sta_set = false ∧
    (setWifiParams query_key_value (wifi_provisioning first_boot)
        ⟨.control, bytes "passkey=Secr3t%21", true⟩).map
      (fun r => (r.1, r.2.network_credentials_sta_set, r.2.glob_wifi_config)) =
      some (.ESP_OK, true, ⟨[], bytes "Secr3t!"⟩) := by
  decide

/-- C6 as amended: `setWifiParams` answers `ESP_OK` on every request, and the
flag afterwards is raised exactly when it was raised before or the request has
a non-empty query string that is read, whether or not the helper finds `ssid`
in it; otherwise it keeps its previous value. -/
theorem setWifiParams_flag (kv : QueryKeyValue) (w : World) (req : httpd_req_t) :
    ∃ w1, setWifiParams kv w req = some (.ESP_OK, w1) ∧
      w1.network_credentials_sta_set =
        (w.network_credentials_sta_set || (decide (0 < strlen req.query) && req.query_str_ok)) := by
  rw [setWifiParams_eq]
  refine ⟨_, rfl, ?_⟩
  by_cases hq : 0 < strlen req.query <;> cases hok : req.query_str_ok <;> simp [hq, hok]

/-! ## Termination and reads of the decoder -/

theorem rd_cons_succ (c : Nat) (rest : List Nat) (j : Nat) :
    rd (c :: rest) (j + 1) = rd rest j := by
  simp [rd]

/-- A non-terminator byte at an offset within the string lies before its end. -/
theorem succ_le_strlen_of_rd_ne_zero (src : List Nat) :
    ∀ i, i ≤ strlen src → rd src i ≠ 0 → i + 1 ≤ strlen src := by
  induction src with
  | nil => intro i _ h; simp [rd] at h
  | cons c rest ih =>
    intro i hi hr
    rw [strlen_cons] at hi ⊢
    cases i with
    | zero =>
      have hc : c ≠ 0 := by simpa [rd] using hr
      rw [if_neg hc]; omega
    | succ j =>
      by_cases hc : c = 0
      · rw [if_pos hc] at hi; omega
      · rw [if_neg hc] at hi ⊢
        rw [rd_cons_succ] at hr
        have := ih j (by omega) hr
        omega

/-- What one iteration does to the read offset and the iteration count. -/
theorem urldecode2_step_some (src : List Nat) (st st1 : DecState)
    (h : urldecode2_step src st = some st1) :
    rd src st.pos ≠ 0 ∧ st1.iters = st.iters + 1 ∧
      ((st1.pos = st.pos + 3 ∧ rd src st.pos = 37 ∧
          rd src (st.pos + 1) ≠ 0 ∧ rd src (st.pos + 2) ≠ 0 ∧
          isxdigit (rd src (st.pos + 1)) = true ∧ isxdigit (rd src (st.pos + 2)) = true) ∨
        st1.pos = st.pos + 1) := by
  unfold urldecode2_step at h
  by_cases h0 : rd src st.pos = 0
  · simp [h0] at h
  · simp only [h0, if_false] at h
    split at h
    · rename_i hesc
      simp only [Bool.and_eq_true, decide_eq_true_eq, bne_iff_ne, ne_eq] at hesc
      cases h
      exact ⟨h0, rfl, Or.inl ⟨rfl, hesc.1.1, hesc.1.2.1, hesc.1.2.2, hesc.2.1, hesc.2.2⟩⟩
    · split at h <;> (cases h; exact ⟨h0, rfl, Or.inr rfl⟩)

/-- Every state the loop goes through has made as many iterations as steps
were taken, at least one byte read per iteration, and a read offset within
the string. -/
theorem urldecode2_after_bounds (src : List Nat) :
    ∀ n st, urldecode2_after src n = some st →
      st.iters = n ∧ n ≤ st.pos ∧ st.pos ≤ strlen src := by
  intro n
  induction n with
  | zero =>
    intro st h
    simp only [urldecode2_after, Option.some.injEq] at h
    subst h
    exact ⟨rfl, Nat.le_refl _, Nat.zero_le _⟩
  | succ n ih =>
    intro st1 h
    simp only [urldecode2_after] at h
    cases hprev : urldecode2_after src n with
    | none => rw [hprev] at h; cases h
    | some st =>
      rw [hprev, Option.some_bind] at h
      obtain ⟨hit, hlo, hhi⟩ := ih st hprev
      obtain ⟨hne, hit1, hadv⟩ := urldecode2_step_some src st st1 h
      have h1 := succ_le_strlen_of_rd_ne_zero src st.pos hhi hne
      refine ⟨by omega, ?_, ?_⟩
      · rcases hadv with ⟨hp, -⟩ | hp <;> omega
      · rcases hadv with ⟨hp, -, ha, hb, -⟩ | hp
        · have h2 := succ_le_strlen_of_rd_ne_zero src (st.pos + 1) h1 ha
          have h3 := succ_le_strlen_of_rd_ne_zero src (st.pos + 2) h2 hb
          omega
        · omega

/-- The state the bounded loop returns is reached by iterating the step, and
the loop test fails there. -/
theorem urldecode2_loop_after (src : List Nat) :
    ∀ (fuel n : Nat) (st st1 : DecState), urldecode2_after src n = some st →
      urldecode2_loop src fuel st = some st1 →
      ∃ m, urldecode2_after src m = some st1 ∧ urldecode2_step src st1 = none := by
  intro fuel
  induction fuel with
  | zero => intro n st st1 _ h; simp [urldecode2_loop] at h
  | succ fuel ih =>
    intro n st st1 hn h
    rw [urldecode2_loop] at h
    cases hs : urldecode2_step src st with
    | none =>
      rw [hs] at h
      simp only [Option.some.injEq] at h
      subst h
      exact ⟨n, hn, hs⟩
    | some st2 =>
      rw [hs] at h
      exact ih (n + 1) st2 st1 (by simp [urldecode2_after, hn, hs]) h

theorem urldecode2_reads_le (src : List Nat) (pos : Nat) (h : pos ≤ strlen src) :
    ∀ i ∈ urldecode2_reads src pos, i ≤ strlen src := by
  intro i hi
  unfold urldecode2_reads at hi
  by_cases h37 : rd src pos = 37
  · have h1 := succ_le_strlen_of_rd_ne_zero src pos h (by rw [h37]; decide)
    rw [if_pos h37] at hi
    by_cases ha : rd src (pos + 1) ≠ 0
    · have h2 := succ_le_strlen_of_rd_ne_zero src (pos + 1) h1 ha
      rw [if_pos ha] at hi
      simp only [List.mem_cons, List.mem_singleton, List.not_mem_nil, or_false] at hi
      omega
    · rw [if_neg ha] at hi
      simp only [List.mem_cons, List.mem_singleton, List.not_mem_nil, or_false] at hi
      omega
  · rw [if_neg h37] at hi
    simp only [List.mem_singleton] at hi
    omega

/-- C14: on every input the loop of `urldecode2` exits, after at most
`strlen src` iterations, with the read offset exactly at the terminator; every
state on the way has its read offset, and every offset the iteration reads,
within the string and its terminator; an iteration advances the read offset
by exactly 1 or exactly 3, by 3 only when the byte read is `%` and the two
bytes after it are non-terminator hexadecimal digits. -/
theorem urldecode2_terminates (src : List Nat) :
    (∃ st, urldecode2_run src = some st ∧ urldecode2_step src st = none ∧
      urldecode2_after src st.iters = some st ∧ st.iters ≤ strlen src ∧
      st.pos = strlen src ∧ rd src st.pos = 0) ∧
    (∀ n st, urldecode2_after src n = some st →
      n ≤ strlen src ∧ st.iters = n ∧ st.pos ≤ strlen src ∧
      ∀ i ∈ urldecode2_reads src st.pos, i ≤ strlen src) ∧
    (∀ st st1, urldecode2_step src st = some st1 →
      (st1.pos = st.pos + 1 ∨ st1.pos = st.pos + 3) ∧
      (st1.pos = st.pos + 3 →
        rd src st.pos = 37 ∧ rd src (st.pos + 1) ≠ 0 ∧ rd src (st.pos + 2) ≠ 0 ∧
        isxdigit (rd src (st.pos + 1)) = true ∧ isxdigit (rd src (st.pos + 2)) = true)) := by
  refine ⟨?_, fun n st h => ?_, fun st st1 h => ?_⟩
  · obtain ⟨k, hk, hrun⟩ := urldecode2_loop_suffix src (src.length + 1) ⟨0, [], 0⟩ (by simp)
    simp only [List.drop_zero, Nat.zero_add] at hk hrun
    obtain ⟨m, hm, hstop⟩ := urldecode2_loop_after src (src.length + 1) 0 ⟨0, [], 0⟩ _ rfl hrun
    have hb := urldecode2_after_bounds src m _ hm
    refine ⟨_, hrun, hstop, ?_, hk, rfl, ?_⟩
    · rw [← hb.1] at hm; exact hm
    · by_contra hne
      have := succ_le_strlen_of_rd_ne_zero src (strlen src) (Nat.le_refl _) hne
      omega
  · obtain ⟨hit, hlo, hhi⟩ := urldecode2_after_bounds src n st h
    exact ⟨by omega, hit, hhi, urldecode2_reads_le src st.pos hhi⟩
  · obtain ⟨-, -, hadv⟩ := urldecode2_step_some src st st1 h
    rcases hadv with ⟨hp, h37, ha, hb, hxa, hxb⟩ | hp
    · exact ⟨Or.inr hp, fun _ => ⟨h37, ha, hb, hxa, hxb⟩⟩
    · exact ⟨Or.inl hp, fun h3 => by omega⟩

/-- C14 on the input `a%20b+c%4`: seven iterations for nine bytes, read offset
9 at the end, no eighth iteration, and the last `%` read up to the terminator. -/
theorem urldecode2_terminates_witness :
    strlen (bytes "a%20b+c%4") = 9 ∧
    (urldecode2_run (bytes "a%20b+c%4")).map (fun st => (st.pos, st.iters)) = some (9, 7) ∧
    (urldecode2_after (bytes "a%20b+c%4") 2).map (fun st => st.pos) = some 4 ∧
    urldecode2_after (bytes "a%20b+c%4") 8 = none ∧
    urldecode2_reads (bytes "a%20b+c%4") 7 = [7, 8, 9] ∧
    ∃ st, urldecode2_run (bytes "a%20b+c%4") = some st ∧
      urldecode2_step (bytes "a%20b+c%4") st = none ∧
      urldecode2_after (bytes "a%20b+c%4") st.iters = some st ∧
      st.iters ≤ strlen (bytes "a%20b+c%4") ∧
      st.pos = strlen (bytes "a%20b+c%4") ∧ rd (bytes "a%20b+c%4") st.pos = 0 :=
  ⟨by decide, by decide, by decide, by decide, by decide,
    (urldecode2_terminates (bytes "a%20b+c%4")).1⟩

/-! ## Malformed escapes -/

/-- After a well-formed prefix without terminator the loop goes on with what follows. -/
theorem decoded_append (l : List Nat) (pre : List Nat) :
    (∀ c ∈ pre, c ≠ 0) → wellFormed pre = true →
      decoded (pre ++ l) = decoded pre ++ decoded l := by
  induction pre using decoded.induct with
  | case1 => intro _ _; rfl
  | case2 => intro h _; exact absurd rfl (h 0 (by simp))
  | case3 c hc =>
    intro _ hw
    have h37 : c ≠ 37 := by rintro rfl; simp [wellFormed, isxdigit] at hw
    rw [List.singleton_append, decoded_cons_of_not_escape c l hc (fun hx => h37 hx.1)]
    simp [decoded, hc]
  | case4 a => intro h _; exact absurd rfl (h 0 (by simp))
  | case5 c a hc ih =>
    intro h hw
    have h37 : c ≠ 37 := by rintro rfl; simp [wellFormed, isxdigit] at hw
    have hw1 : wellFormed [a] = true := by
      simp only [wellFormed, Bool.and_eq_true] at hw ⊢; exact hw.2
    have ih1 := ih (fun d hd => h d (List.mem_cons_of_mem _ hd)) hw1
    rw [List.cons_append, decoded_cons_of_not_escape c _ hc (fun hx => h37 hx.1), ih1]
    simp [decoded, hc]
  | case6 a b rest => intro h _; exact absurd rfl (h 0 (by simp))
  | case7 c a b rest hc hx ih =>
    intro h hw
    have hw1 : wellFormed rest = true := by
      simp only [wellFormed, Bool.and_eq_true] at hw; exact hw.2.2.2
    have ih1 := ih (fun d hd =>
      h d (List.mem_cons_of_mem _ (List.mem_cons_of_mem _ (List.mem_cons_of_mem _ hd)))) hw1
    rw [List.cons_append, List.cons_append, List.cons_append, decoded, if_neg hc, if_pos hx, ih1,
      decoded, if_neg hc, if_pos hx, List.cons_append]
  | case8 c a b rest hc hx ih =>
    intro h hw
    have hw1 : wellFormed (a :: b :: rest) = true := by
      simp only [wellFormed, Bool.and_eq_true] at hw ⊢; exact hw.2
    have ih1 := ih (fun d hd => h d (List.mem_cons_of_mem _ hd)) hw1
    rw [List.cons_append, decoded_cons_of_not_escape c _ hc (by simpa using hx), ih1,
      decoded, if_neg hc, if_neg hx, List.cons_append]

/-- C13 (the claim fails): on `a%zzb`, whose `%` is not followed by two
hexadecimal digits, `urldecode2` writes `a%zzb`, not the decoding `a` of the
prefix before that `%`. -/
theorem urldecode2_copies_malformed_escape :
    wellFormed (cstr (bytes "a%zzb")) = false ∧
    urldecode2 (bytes "a%zzb") = some (bytes "a%zzb" ++ [0]) ∧
    urldecode2 (bytes "a") = some (bytes "a" ++ [0]) ∧
    urldecode2 (bytes "a%zzb") ≠ urldecode2 (bytes "a") := by
  decide

/-- C13 as amended: a `%` that is not followed by two hexadecimal digits is
copied and decoding goes on after it: when `pre` is the well-formed part of the
input before the first such `%` and `rest` what follows it, the output is the
decoding of `pre`, then `%`, then the decoding of `rest`. -/
theorem urldecode2_malformed_escape (pre rest : List Nat)
    (hpre : ∀ c ∈ pre, c ≠ 0) (hwf : wellFormed pre = true)
    (hbad : ¬ (isxdigit (rest.getD 0 0) = true ∧ isxdigit (rest.getD 1 0) = true)) :
    ∃ p r, urldecode2 pre = some (p ++ [0]) ∧ urldecode2 rest = some (r ++ [0]) ∧
      urldecode2 (pre ++ 37 :: rest) = some (p ++ 37 :: r ++ [0]) := by
  refine ⟨decoded pre, decoded rest, urldecode2_eq pre, urldecode2_eq rest, ?_⟩
  rw [urldecode2_eq, decoded_append _ pre hpre hwf,
    decoded_cons_of_not_escape 37 rest (by decide) (fun hx => hbad hx.2)]
  simp

/-- C13 as amended, on `a%20b%zz+c`: the prefix `a%20b` decodes to `a b`, the
rest `zz+c` to `zz c`, and the output is `a b%zz c`. -/
theorem urldecode2_malformed_escape_witness :
    urldecode2 (bytes "a%20b%zz+c") = some (bytes "a b%zz c" ++ [0]) ∧
    ∃ p r, urldecode2 (bytes "a%20b") = some (p ++ [0]) ∧
      urldecode2 (bytes "zz+c") = some (r ++ [0]) ∧
      urldecode2 (bytes "a%20b" ++ 37 :: bytes "zz+c") = some (p ++ 37 :: r ++ [0]) :=
  ⟨by decide,
    urldecode2_malformed_escape (bytes "a%20b") (bytes "zz+c") (by decide) (by decide)
      (by decide)⟩

/-! ## The retry counter -/

/-- The handler changes the counter in two branches only: the retry branch of
"disconnected" (by one) and "address acquired" (to zero). -/
theorem handler_retry_cases (st : Station) (ev : Event) :
    (ev = sta_disconnected ∧ st.s_retry_num < ESP_MAXIMUM_RETRY ∧
        (wifi_event_handler st ev).s_retry_num = st.s_retry_num + 1) ∨
      (ev = sta_got_ip ∧ (wifi_event_handler st ev).s_retry_num = 0) ∨
      (¬ (ev = sta_disconnected ∧ st.s_retry_num < ESP_MAXIMUM_RETRY) ∧ ev ≠ sta_got_ip ∧
        (wifi_event_handler st ev).s_retry_num = st.s_retry_num) := by
  obtain ⟨base, id⟩ := ev
  by_cases hd : (⟨base, id⟩ : Event) = sta_disconnected
  · rw [hd]
    by_cases hlt : st.s_retry_num < ESP_MAXIMUM_RETRY
    · exact Or.inl ⟨rfl, hlt, by rw [handler_sta_disconnected_retry st hlt]⟩
    · refine Or.inr (Or.inr ⟨fun h => hlt h.2, by decide, ?_⟩)
      obtain ⟨r, bits, calls⟩ := st
      rw [handler_sta_disconnected_fail r bits calls hlt]
  · by_cases hg : (⟨base, id⟩ : Event) = sta_got_ip
    · rw [hg]
      exact Or.inr (Or.inl ⟨rfl, by rw [handler_sta_got_ip]⟩)
    · refine Or.inr (Or.inr ⟨fun h => hd h.1, hg, ?_⟩)
      simp only [sta_disconnected, sta_got_ip, Event.mk.injEq, not_and] at hd hg
      unfold wifi_event_handler
      simp only []
      split_ifs with h1 h2 h3 h4 h5 h6
      · rfl
      · rfl
      · rfl
      · exact absurd h4.2 (hd h4.1)
      · exact absurd h4.2 (hd h4.1)
      · exact absurd h6.2 (hg h6.1)
      · rfl

/-- The counter stays within `[0, MAX_RETRY]` over one event. -/
theorem handler_retry_bounds (st : Station) (ev : Event)
    (h0 : 0 ≤ st.s_retry_num) (hmax : st.s_retry_num ≤ ESP_MAXIMUM_RETRY) :
    0 ≤ (wifi_event_handler st ev).s_retry_num ∧
      (wifi_event_handler st ev).s_retry_num ≤ ESP_MAXIMUM_RETRY := by
  rcases handler_retry_cases st ev with ⟨-, hlt, he⟩ | ⟨-, he⟩ | ⟨-, -, he⟩
  · rw [he]; constructor <;> omega
  · rw [he]; exact ⟨le_refl _, by decide⟩
  · rw [he]; exact ⟨h0, hmax⟩

/-- The counter stays within `[0, MAX_RETRY]` over any sequence of events. -/
theorem deliver_retry_bounds (events : List Event) :
    ∀ st : Station, 0 ≤ st.s_retry_num → st.s_retry_num ≤ ESP_MAXIMUM_RETRY →
      0 ≤ (deliver st events).s_retry_num ∧
        (deliver st events).s_retry_num ≤ ESP_MAXIMUM_RETRY := by
  induction events with
  | nil => intro st h0 hmax; exact ⟨h0, hmax⟩
  | cons ev events ih =>
    intro st h0 hmax
    obtain ⟨h1, h2⟩ := handler_retry_bounds st ev h0 hmax
    exact ih (wifi_event_handler st ev) h1 h2

/-- C11: from a counter in `[0, MAX_RETRY]`, after every event of every
sequence delivered to `wifi_event_handler` the counter `s_retry_num` is in
`[0, MAX_RETRY]`; it goes up by one only on a "disconnected" event handled with
the counter below `MAX_RETRY` (and does so on each such event); and it is 0
after every "address acquired" event. -/
theorem retry_counter_invariant :
    (∀ (st : Station) (events : List Event) (k : Nat),
      0 ≤ st.s_retry_num → st.s_retry_num ≤ ESP_MAXIMUM_RETRY →
      0 ≤ (deliver st (events.take k)).s_retry_num ∧
        (deliver st (events.take k)).s_retry_num ≤ ESP_MAXIMUM_RETRY) ∧
    (∀ (st : Station) (ev : Event), 0 ≤ st.s_retry_num →
      (wifi_event_handler st ev).s_retry_num = st.s_retry_num + 1 →
      ev = sta_disconnected ∧ st.s_retry_num < ESP_MAXIMUM_RETRY) ∧
    (∀ st : Station, st.s_retry_num < ESP_MAXIMUM_RETRY →
      (wifi_event_handler st sta_disconnected).s_retry_num = st.s_retry_num + 1) ∧
    (∀ st : Station, (wifi_event_handler st sta_got_ip).s_retry_num = 0) ∧
    (∀ (st : Station) (ev : Event), ev ≠ sta_got_ip →
      ¬ (ev = sta_disconnected ∧ st.s_retry_num < ESP_MAXIMUM_RETRY) →
      (wifi_event_handler st ev).s_retry_num = st.s_retry_num) := by
  refine ⟨fun st events k h0 hmax => deliver_retry_bounds _ st h0 hmax,
    fun st ev h0 hinc => ?_, fun st hlt => ?_, fun st => ?_, fun st ev hg hd => ?_⟩
  · rcases handler_retry_cases st ev with ⟨he, hlt, -⟩ | ⟨-, he⟩ | ⟨-, -, he⟩
    · exact ⟨he, hlt⟩
    · rw [he] at hinc; omega
    · rw [he] at hinc; omega
  · rw [handler_sta_disconnected_retry st hlt]
  · rw [handler_sta_got_ip]
  · rcases handler_retry_cases st ev with ⟨he, hlt, -⟩ | ⟨he, -⟩ | ⟨-, -, he⟩
    · exact absurd ⟨he, hlt⟩ hd
    · exact absurd he hg
    · exact he

/-- C11 on a device at first boot, over a sequence with all five kinds of
event: the counter after each prefix, and the bounds after the first eight. -/
theorem retry_counter_invariant_witness :
    (List.range 10).map (fun k => (deliver first_boot.sta
      ([sta_start, sta_disconnected, ap_staconnected, sta_disconnected, sta_got_ip,
        sta_disconnected, ap_stadisconnected, sta_disconnected, sta_got_ip].take k)).s_retry_num)
      = [0, 0, 1, 1, 2, 0, 1, 1, 2, 0] ∧
    (0 ≤ (deliver first_boot.sta
      ([sta_start, sta_disconnected, ap_staconnected, sta_disconnected, sta_got_ip,
        sta_disconnected, ap_stadisconnected, sta_disconnected, sta_got_ip].take 8)).s_retry_num ∧
      (deliver first_boot.sta
      ([sta_start, sta_disconnected, ap_staconnected, sta_disconnected, sta_got_ip,
        sta_disconnected, ap_stadisconnected, sta_disconnected, sta_got_ip].take 8)).s_retry_num
        ≤ ESP_MAXIMUM_RETRY) :=
  ⟨by decide, retry_counter_invariant.1 first_boot.sta _ 8 (by decide) (by decide)⟩

/-- Without the abort of the checks, the checked controller is `connect_to_network`. -/
theorem checked_connect_to_network_eq (kv : QueryKeyValue) (w : World)
    (reqs : List httpd_req_t) (events : List Event) :
    checked_connect_to_network kv ⟨w, false⟩ reqs events =
      match connect_to_network kv w reqs events with
      | none => .blocked
      | some r => .returned (r.1, ⟨r.2, true⟩) := by
  rw [connect_to_network_eq]
  simp only [checked_connect_to_network, station_entry,
    checked_start_soft_AP_mode_and_get_credentials, esp_event_loop_create_default,
    esp_event_loop_delete_default, checked_wifi_init_sta_try_to_connect_to_wifi]
  cases hf : (_credentials_stored_in_NVS w).1
  · cases hp : _start_soft_AP_mode_and_get_credentials kv (_credentials_stored_in_NVS w).2 reqs with
    | none => simp [hp]
    | some w1 =>
      cases hs : wifi_init_sta_try_to_connect_to_wifi w1 events <;> simp [hp, hs]
  · cases hs : wifi_init_sta_try_to_connect_to_wifi (_credentials_stored_in_NVS w).2 events <;>
      simp [hs]

end WIFI_PROVISIONING
